import Mathlib

/-!
Shallow embedding of the kuevt synchronization engine
(`src/neoclient.py` and `src/kubedatactrl.py`).

The graph store is modelled as an explicit state (`GraphState`): one list per
entity kind and one list per edge type, edges keyed by the endpoint entity
names.  Each public operation of `Neo4jClient` is translated into a state
transition whose steps mirror the Cypher statements the Python code issues,
in the order the code issues them.  Cypher conventions modelled here:

* `MERGE (:Kind {name, kind, created})` creates the entity only when no
  entity of that kind carries exactly those three property values;
* `MATCH (x:Kind {f: $v}) SET ...` updates every entity of the kind whose
  property `f` equals `v`; matching a property against the Cypher `null`
  value (a Python `None` parameter) matches nothing;
* `MERGE (a)-[:rel]->(b)` over matched pairs appends the edge only when it
  is not already present (create-if-absent);
* `DETACH DELETE` removes the matched entities and every edge incident to
  them.

Python truthiness guards (`if props['pod_ip'] and props['status']:`,
`if props['ready_replicas'] and props['replicas']:`, `if labels:`,
`if selector:`) are modelled exactly: `None` and the empty string are falsy
for strings, `None` and `0` are falsy for integers, `None` and the empty
collection are falsy for label/selector dictionaries (both are represented
by the empty list).
-/

/-- A `Node` entity: `MERGE (:Node {name, kind, created})` in `create_node`. -/
structure NodeEnt where
  name : String
  kind : String
  created : String
deriving DecidableEq, Repr

/-- A `Namespace` entity with its mutable `status` property. -/
structure NamespaceEnt where
  name : String
  kind : String
  created : String
  status : Option String := none
deriving DecidableEq, Repr

/-- A `Pod` entity with the mutable properties `upsert_pod` sets. -/
structure Pod where
  name : String
  kind : String
  created : String
  status : Option String := none
  pod_ip : Option String := none
  labels : Option (List String) := none
deriving DecidableEq, Repr

/-- A `Deployment` entity with the mutable properties `upsert_deployment` sets. -/
structure Deployment where
  name : String
  kind : String
  created : String
  replicas : Option Int := none
  ready_replicas : Option Int := none
  labels : Option (List String) := none
  selector : Option (List String) := none
deriving DecidableEq, Repr

/-- The graph store: entity lists per kind plus one list per edge type.
`runsOn` holds (pod name, node name), `podNamespace` holds
(pod name, namespace name), `depNamespace` holds
(deployment name, namespace name), `scheduledTo` holds
(deployment name, pod name). -/
structure GraphState where
  nodes : List NodeEnt
  namespaces : List NamespaceEnt
  pods : List Pod
  deployments : List Deployment
  runsOn : List (String × String)
  podNamespace : List (String × String)
  depNamespace : List (String × String)
  scheduledTo : List (String × String)
deriving DecidableEq, Repr

/-- The empty graph store. -/
def emptyStore : GraphState :=
  { nodes := [], namespaces := [], pods := [], deployments := []
    runsOn := [], podNamespace := [], depNamespace := [], scheduledTo := [] }

/-- Python truthiness of an optional string (`None` and `""` are falsy). -/
def truthyStr : Option String → Bool
  | none => false
  | some s => !(s == "")

/-- Python truthiness of an optional integer (`None` and `0` are falsy). -/
def truthyInt : Option Int → Bool
  | none => false
  | some n => !(n == 0)

/-- Cypher property-map match on `pod_ip`: the parameter value on the left,
the stored property on the right.  A `null` parameter (Python `None`) matches
nothing, and a stored `null` property matches nothing. -/
def ipMatch : Option String → Option String → Bool
  | some a, some b => a == b
  | _, _ => false

/-- The label list `['k=v', ...]` the Python code builds from a labels or
selector dictionary (`'%s=%s' % (key, value)` per entry). -/
def labelProperty (l : List (String × String)) : List String :=
  l.map (fun kv => kv.1 ++ "=" ++ kv.2)

/-- The generated `WHERE "x1" in p.labels AND ... AND "xn" in p.labels`
condition of `upsert_pod` (neoclient.py 90-94), as the spec's Selector
Matcher: true iff every selector entry occurs in the label list. -/
def matchesSel (labels selector : List String) : Bool :=
  selector.all (fun x => decide (x ∈ labels))

/-- The generated condition applied to a stored pod: a pod with no `labels`
property satisfies no membership test (Cypher `x IN null` is `null`). -/
def schedCond (sel : List String) (p : Pod) : Bool :=
  match p.labels with
  | none => false
  | some ls => matchesSel ls sel

/-- Create-if-absent insertion of one edge (Cypher `MERGE` on a relationship). -/
def insertEdge (e : String × String) (es : List (String × String)) :
    List (String × String) :=
  if e ∈ es then es else es ++ [e]

/-- One edge-`MERGE` statement over all matched pods: for each pod passing
`cond`, insert the edge `mk p` if absent. -/
def edgeFold (cond : Pod → Bool) (mk : Pod → String × String)
    (pods : List Pod) (es : List (String × String)) : List (String × String) :=
  pods.foldl (fun acc p => if cond p then insertEdge (mk p) acc else acc) es

/-- `MERGE (:Pod {name, kind, created})` (neoclient.py 66-68). -/
def mergePod (nm kd cr : String) (s : GraphState) : GraphState :=
  if ∃ p ∈ s.pods, p.name = nm ∧ p.kind = kd ∧ p.created = cr then s
  else { s with pods := s.pods ++ [{ name := nm, kind := kd, created := cr }] }

/-- Map a function over the stored pods, leaving everything else unchanged. -/
def mapPods (f : Pod → Pod) (s : GraphState) : GraphState :=
  { s with pods := s.pods.map f }

/-- The per-pod effect of `SET p.status = $status, p.pod_ip = $pod_ip` under
`MATCH (p:Pod {name: $name})`. -/
def ipStatusFn (nm : String) (st ip : Option String) (p : Pod) : Pod :=
  if p.name = nm then { p with status := st, pod_ip := ip } else p

/-- `MATCH (p:Pod {name}) SET p.status, p.pod_ip` (neoclient.py 72-75). -/
def setIpStatus (nm : String) (st ip : Option String) : GraphState → GraphState :=
  mapPods (ipStatusFn nm st ip)

/-- The per-pod effect of `SET p.labels = $labels` under
`MATCH (p:Pod {pod_ip: $pod_ip})`. -/
def labelFn (q : Option String) (lp : List String) (p : Pod) : Pod :=
  if ipMatch q p.pod_ip then { p with labels := some lp } else p

/-- `update_pod_label` (neoclient.py 208-218):
`MATCH (p:Pod {pod_ip}) SET p.labels`, keyed by the supplied pod IP. -/
def update_pod_label (q : Option String) (lp : List String) : GraphState → GraphState :=
  mapPods (labelFn q lp)

/-- One iteration of the deployment-matching loop (neoclient.py 95-99):
`MATCH (d:Deployment {name}) MATCH (p:Pod) WHERE <condition>
MERGE (d)-[:scheduledTo]->(p)`. -/
def addSchedEdgesFor (dn : String) (sel : List String) (s : GraphState) : GraphState :=
  if ∃ d ∈ s.deployments, d.name = dn then
    { s with scheduledTo :=
        edgeFold (schedCond sel) (fun p => (dn, p.name)) s.pods s.scheduledTo }
  else s

/-- The deployment-matching loop body over the deployment list read by
`get_deployments` (neoclient.py 86-99): deployments whose selector is `null`
or empty are skipped by `if selector:`. -/
def scanDeps (deps : List (String × Option (List String))) (s : GraphState) :
    GraphState :=
  deps.foldl (fun st pr =>
    match pr.2 with
    | some sel => if sel.isEmpty then st else addSchedEdgesFor pr.1 sel st
    | none => st) s

/-- `get_deployments` (neoclient.py 203-205) followed by the per-deployment
edge loop: the name/selector pairs are read once from the store. -/
def deployScan (s : GraphState) : GraphState :=
  scanDeps (s.deployments.map (fun d => (d.name, d.selector))) s

/-- `add_pod_to_node` (neoclient.py 220-232): pods matched by `pod_ip`, the
node matched by name, `MERGE (p)-[:runsOn]->(n)` per pair. -/
def add_pod_to_node (q : Option String) (nn : String) (s : GraphState) : GraphState :=
  if ∃ n ∈ s.nodes, n.name = nn then
    { s with runsOn :=
        edgeFold (fun p => ipMatch q p.pod_ip) (fun p => (p.name, nn)) s.pods s.runsOn }
  else s

/-- `add_pod_to_namespace` (neoclient.py 234-246): pods matched by `pod_ip`,
the namespace matched by name, `MERGE (p)-[:associateTo]->(n)` per pair. -/
def add_pod_to_namespace (q : Option String) (ns : String) (s : GraphState) :
    GraphState :=
  if ∃ n ∈ s.namespaces, n.name = ns then
    { s with podNamespace :=
        (edgeFold (fun p => ipMatch q p.pod_ip) (fun p => (p.name, ns)) s.pods
          s.podNamespace) }
  else s

/-- The props dictionary `watch_pod` passes to `upsert_pod`. -/
structure PodProps where
  name : String
  kind : String
  created : String
  status : Option String
  pod_ip : Option String
deriving DecidableEq, Repr

/-- Step 2 of `upsert_pod` (neoclient.py 70-75): the guard
`if props['pod_ip'] and props['status']:` followed by the `SET`. -/
def podIpStatusStep (props : PodProps) (s : GraphState) : GraphState :=
  if truthyStr props.pod_ip && truthyStr props.status then
    setIpStatus props.name props.status props.pod_ip s
  else s

/-- Step 3 of `upsert_pod` (neoclient.py 77-99): the guard `if labels:`
followed by the wholesale label replacement keyed by `pod_ip` and the
deployment-matching loop. -/
def podLabelsStep (q : Option String) (labels : List (String × String))
    (s : GraphState) : GraphState :=
  if labels.isEmpty then s
  else deployScan (update_pod_label q (labelProperty labels) s)

/-- Step 4 of `upsert_pod` (neoclient.py 101-104): the guard
`if node_name:` followed by `add_pod_to_node`. -/
def podNodeStep (q : Option String) (onn : Option String) (s : GraphState) :
    GraphState :=
  match onn with
  | some nn => if nn = "" then s else add_pod_to_node q nn s
  | none => s

/-- Step 5 of `upsert_pod` (neoclient.py 105-108): the guard
`if namespace:` followed by `add_pod_to_namespace`. -/
def podNsStep (q : Option String) (ons : Option String) (s : GraphState) :
    GraphState :=
  match ons with
  | some ns => if ns = "" then s else add_pod_to_namespace q ns s
  | none => s

/-- `upsert_pod` (neoclient.py 54-112), happy path: create the pod, set
IP/status when both are truthy, then — when labels are present — replace the
stored label set (keyed by `pod_ip`) and run the deployment-matching loop,
then link to the node and the namespace (both joined through `pod_ip`). -/
def upsert_pod (props : PodProps) (labels : List (String × String))
    (nspace : Option String) (node_name : Option String) (s : GraphState) :
    GraphState :=
  podNsStep props.pod_ip nspace
    (podNodeStep props.pod_ip node_name
      (podLabelsStep props.pod_ip labels
        (podIpStatusStep props
          (mergePod props.name props.kind props.created s))))

/-- `remove_pod` (neoclient.py 114-129): `MATCH (p:Pod {name}) DETACH DELETE p`
removes every pod with that name and every edge incident to a deleted pod. -/
def remove_pod (nm : String) (s : GraphState) : GraphState :=
  { s with pods := s.pods.filter (fun p => p.name != nm),
           runsOn := s.runsOn.filter (fun e => e.1 != nm),
           podNamespace := s.podNamespace.filter (fun e => e.1 != nm),
           scheduledTo := s.scheduledTo.filter (fun e => e.2 != nm) }

/-- The props dictionary the node watch passes to `create_node`. -/
structure NodeProps where
  name : String
  kind : String
  created : String
deriving DecidableEq, Repr

/-- `create_node` (neoclient.py 17-31), happy path. -/
def create_node (props : NodeProps) (s : GraphState) : GraphState :=
  if ∃ n ∈ s.nodes, n.name = props.name ∧ n.kind = props.kind ∧
      n.created = props.created then s
  else { s with nodes := s.nodes ++
          [{ name := props.name, kind := props.kind, created := props.created }] }

/-- The props dictionary the namespace watch passes to `upsert_namespace`. -/
structure NsProps where
  name : String
  kind : String
  created : String
  status : Option String
deriving DecidableEq, Repr

/-- `MERGE (:Namespace {name, kind, created})` (neoclient.py 41-43). -/
def mergeNamespace (nm kd cr : String) (s : GraphState) : GraphState :=
  if ∃ n ∈ s.namespaces, n.name = nm ∧ n.kind = kd ∧ n.created = cr then s
  else { s with namespaces := s.namespaces ++ [{ name := nm, kind := kd, created := cr }] }

/-- The per-namespace effect of `SET n.status = $status`. -/
def nsStatusFn (nm : String) (st : Option String) (n : NamespaceEnt) : NamespaceEnt :=
  if n.name = nm then { n with status := st } else n

/-- `MATCH (n:Namespace {name}) SET n.status` (neoclient.py 45-47). -/
def setNsStatus (nm : String) (st : Option String) (s : GraphState) : GraphState :=
  { s with namespaces := s.namespaces.map (nsStatusFn nm st) }

/-- `upsert_namespace` (neoclient.py 33-52), happy path. -/
def upsert_namespace (props : NsProps) (s : GraphState) : GraphState :=
  let s1 := mergeNamespace props.name props.kind props.created s
  if truthyStr props.status then setNsStatus props.name props.status s1 else s1

/-- The props dictionary `watch_deployment` passes to `upsert_deployment`. -/
structure DeployProps where
  name : String
  kind : String
  created : String
  replicas : Option Int
  ready_replicas : Option Int
deriving DecidableEq, Repr

/-- `MERGE (:Deployment {name, kind, created})` (neoclient.py 143-145). -/
def mergeDeployment (nm kd cr : String) (s : GraphState) : GraphState :=
  if ∃ d ∈ s.deployments, d.name = nm ∧ d.kind = kd ∧ d.created = cr then s
  else { s with deployments := s.deployments ++ [{ name := nm, kind := kd, created := cr }] }

/-- Map a function over the stored deployments, leaving everything else
unchanged. -/
def mapDeps (f : Deployment → Deployment) (s : GraphState) : GraphState :=
  { s with deployments := s.deployments.map f }

/-- The per-deployment effect of `SET d.replicas, d.ready_replicas`. -/
def replicasFn (nm : String) (r rr : Option Int) (d : Deployment) : Deployment :=
  if d.name = nm then { d with replicas := r, ready_replicas := rr } else d

/-- `MATCH (d:Deployment {name}) SET d.replicas, d.ready_replicas`
(neoclient.py 148-152). -/
def setReplicas (nm : String) (r rr : Option Int) : GraphState → GraphState :=
  mapDeps (replicasFn nm r rr)

/-- The per-deployment effect of `SET d.labels = $labels`. -/
def depLabelsFn (nm : String) (lp : List String) (d : Deployment) : Deployment :=
  if d.name = nm then { d with labels := some lp } else d

/-- `MATCH (d:Deployment {name}) SET d.labels` (neoclient.py 158-161). -/
def setDepLabels (nm : String) (lp : List String) : GraphState → GraphState :=
  mapDeps (depLabelsFn nm lp)

/-- The per-deployment effect of `SET d.selector = $selector`. -/
def depSelectorFn (nm : String) (sp : List String) (d : Deployment) : Deployment :=
  if d.name = nm then { d with selector := some sp } else d

/-- `MATCH (d:Deployment {name}) SET d.selector` (neoclient.py 175-178). -/
def setDepSelector (nm : String) (sp : List String) : GraphState → GraphState :=
  mapDeps (depSelectorFn nm sp)

/-- `MATCH (d:Deployment {name}) MATCH (n:Namespace {name: $namespace})
MERGE (d)-[:associateTo]->(n)` (neoclient.py 165-169). -/
def addDepToNamespace (dn ns : String) (s : GraphState) : GraphState :=
  if (∃ d ∈ s.deployments, d.name = dn) ∧ (∃ n ∈ s.namespaces, n.name = ns) then
    { s with depNamespace := insertEdge (dn, ns) s.depNamespace }
  else s

/-- Step 2 of `upsert_deployment` (neoclient.py 147-152): the guard
`if props['ready_replicas'] and props['replicas']:` — a Python truthiness
test, so a zero count skips the `SET` — followed by the `SET` of both
replica counts. -/
def depReplicasStep (props : DeployProps) (s : GraphState) : GraphState :=
  if truthyInt props.ready_replicas && truthyInt props.replicas then
    setReplicas props.name props.replicas props.ready_replicas s
  else s

/-- Step 3 of `upsert_deployment` (neoclient.py 153-161): `if labels:`
followed by the `SET`. -/
def depLabelsStep (nm : String) (labels : List (String × String))
    (s : GraphState) : GraphState :=
  if labels.isEmpty then s else setDepLabels nm (labelProperty labels) s

/-- Step 4 of `upsert_deployment` (neoclient.py 162-169): `if namespace:`
followed by the edge `MERGE`. -/
def depNsStep (nm : String) (ons : Option String) (s : GraphState) : GraphState :=
  match ons with
  | some ns => if ns = "" then s else addDepToNamespace nm ns s
  | none => s

/-- Step 5 of `upsert_deployment` (neoclient.py 170-178): `if selector:`
followed by the `SET`; an empty selector dictionary is never stored. -/
def depSelectorStep (nm : String) (selector : List (String × String))
    (s : GraphState) : GraphState :=
  if selector.isEmpty then s else setDepSelector nm (labelProperty selector) s

/-- `upsert_deployment` (neoclient.py 131-183), happy path, steps in source
order: create, replicas, labels, namespace edge, selector. -/
def upsert_deployment (props : DeployProps) (labels : List (String × String))
    (nspace : Option String) (selector : List (String × String)) (s : GraphState) :
    GraphState :=
  depSelectorStep props.name selector
    (depNsStep props.name nspace
      (depLabelsStep props.name labels
        (depReplicasStep props
          (mergeDeployment props.name props.kind props.created s))))

/-- `remove_deployment` (neoclient.py 186-201):
`MATCH (d:Deployment {name}) DETACH DELETE d`. -/
def remove_deployment (nm : String) (s : GraphState) : GraphState :=
  { s with deployments := s.deployments.filter (fun d => d.name != nm),
           depNamespace := s.depNamespace.filter (fun e => e.1 != nm),
           scheduledTo := s.scheduledTo.filter (fun e => e.1 != nm) }

/-!
Dispatcher model (`src/kubedatactrl.py`).

`watch_pod` (lines 70-89) iterates over the event stream with no per-event
exception handling: `_build_base_props` (lines 112-123) calls
`creation_timestamp.strftime(...)`, which raises when the field is absent
(`None`); the exception propagates out of `watch_pod`, is caught once in
`EventActor.on_receive` (lines 131-146), logged and re-raised, so the watch
loop terminates and the remaining events of that kind are never processed.
A raw event object is modelled with `creation_timestamp : Option String`;
normalization yields `none` exactly when that required field is absent.
-/

/-- A raw pod watch event object; `creation_timestamp = none` models a
required field whose access raises during normalization. -/
structure RawPodObject where
  name : String
  kind : String
  creation_timestamp : Option String
  labels : List (String × String)
  nspace : Option String
  node_name : Option String
  phase : Option String
  pod_ip : Option String
deriving DecidableEq, Repr

/-- A raw pod watch event: event type plus object. -/
structure RawPodEvent where
  type : String
  object : RawPodObject
deriving DecidableEq, Repr

/-- `_build_base_props` (kubedatactrl.py 112-123): extracts name, kind and
creation time; fails (the `strftime` call raises) when `creation_timestamp`
is absent. -/
def build_base_props (o : RawPodObject) : Option (String × String × String) :=
  match o.creation_timestamp with
  | none => none
  | some ts => some (o.name, o.kind, ts)

/-- One iteration of the `watch_pod` loop body (kubedatactrl.py 76-89):
ADDED/MODIFIED dispatch to `upsert_pod`, DELETED to `remove_pod`, other
event types are ignored; `none` models the uncaught normalization error. -/
def watch_pod_step (e : RawPodEvent) (s : GraphState) : Option GraphState :=
  if e.type = "ADDED" ∨ e.type = "MODIFIED" then
    match build_base_props e.object with
    | none => none
    | some pr =>
        some (upsert_pod
          { name := pr.1, kind := pr.2.1, created := pr.2.2,
            status := e.object.phase, pod_ip := e.object.pod_ip }
          e.object.labels e.object.nspace e.object.node_name s)
  else if e.type = "DELETED" then some (remove_pod e.object.name s)
  else some s

/-- The `watch_pod` loop over a finite stream prefix: processes events in
order; a normalization error aborts the loop (the flag `false` records that
the exception propagated and the remaining events were never processed). -/
def watch_pod_loop : List RawPodEvent → GraphState → GraphState × Bool
  | [], s => (s, true)
  | e :: rest, s =>
      match watch_pod_step e s with
      | none => (s, false)
      | some t => watch_pod_loop rest t

/-- `watch_deployment` props construction (kubedatactrl.py 104-106):
`props['replicas'] = spec.replicas` and `props['ready_replicas'] =
status.ready_replicas if status.ready_replicas else 0`, so an absent (or
zero) ready count is normalized to `0` and the key is always present. -/
def build_deployment_props (nm kd cr : String) (replicas ready : Option Int) :
    DeployProps :=
  { name := nm, kind := kd, created := cr, replicas := replicas,
    ready_replicas := some (ready.getD 0) }

/-!
Fault model for the store (`ServiceUnavailable` vs other exceptions).

Every public `Neo4jClient` operation wraps its session in `try/except`.
`create_node` (neoclient.py 29) and `upsert_namespace` (neoclient.py 49)
catch only `ServiceUnavailable`; `upsert_pod` (110), `remove_pod` (127),
`upsert_deployment` (181) and `remove_deployment` (199) catch `Exception`.
A fault (`some e`) models the store raising `e` at the first statement of
the operation, so the state is left unchanged; the operation either catches
it and returns `false`, or propagates it (`Except.error`) to the caller.
-/

/-- A store exception: `ServiceUnavailable`, or any other exception class
raised by the driver (e.g. a Cypher or session error). -/
inductive StoreErr where
  | serviceUnavailable
  | otherErr
deriving DecidableEq, Repr

/-- `create_node` under the fault model: only `ServiceUnavailable` is caught
(neoclient.py 29-31); any other exception propagates. -/
def create_nodeE (fault : Option StoreErr) (props : NodeProps) (s : GraphState) :
    Except StoreErr (Bool × GraphState) :=
  match fault with
  | none => .ok (true, create_node props s)
  | some .serviceUnavailable => .ok (false, s)
  | some e => .error e

/-- `upsert_namespace` under the fault model: only `ServiceUnavailable` is
caught (neoclient.py 49-52); any other exception propagates. -/
def upsert_namespaceE (fault : Option StoreErr) (props : NsProps) (s : GraphState) :
    Except StoreErr (Bool × GraphState) :=
  match fault with
  | none => .ok (true, upsert_namespace props s)
  | some .serviceUnavailable => .ok (false, s)
  | some e => .error e

/-- `upsert_pod` under the fault model: every exception is caught
(neoclient.py 110-112) and the operation returns `False`. -/
def upsert_podE (fault : Option StoreErr) (props : PodProps)
    (labels : List (String × String)) (nspace node_name : Option String)
    (s : GraphState) : Except StoreErr (Bool × GraphState) :=
  match fault with
  | none => .ok (true, upsert_pod props labels nspace node_name s)
  | some _ => .ok (false, s)

/-- `remove_pod` under the fault model: every exception is caught
(neoclient.py 127-129). -/
def remove_podE (fault : Option StoreErr) (nm : String) (s : GraphState) :
    Except StoreErr (Bool × GraphState) :=
  match fault with
  | none => .ok (true, remove_pod nm s)
  | some _ => .ok (false, s)

/-- `upsert_deployment` under the fault model: every exception is caught
(neoclient.py 181-183). -/
def upsert_deploymentE (fault : Option StoreErr) (props : DeployProps)
    (labels : List (String × String)) (nspace : Option String)
    (selector : List (String × String)) (s : GraphState) :
    Except StoreErr (Bool × GraphState) :=
  match fault with
  | none => .ok (true, upsert_deployment props labels nspace selector s)
  | some _ => .ok (false, s)

/-- `remove_deployment` under the fault model: every exception is caught
(neoclient.py 199-201). -/
def remove_deploymentE (fault : Option StoreErr) (nm : String) (s : GraphState) :
    Except StoreErr (Bool × GraphState) :=
  match fault with
  | none => .ok (true, remove_deployment nm s)
  | some _ => .ok (false, s)

/-!
Concrete scenario states, built only through the modelled operations (they
replay the test scenarios of the spec: out-of-order pod/deployment arrival,
an IP-less pod, an empty selector, replica counts of zero).
-/

/-- The pod of the out-of-order scenario: labels `{"app=x"}`, IP `10.0.0.1`. -/
def podPropsX : PodProps :=
  { name := "p1", kind := "Pod", created := "t1",
    status := some "Running", pod_ip := some "10.0.0.1" }

/-- The labels dictionary `{"app": "x"}`. -/
def podLabelsX : List (String × String) := [("app", "x")]

/-- The deployment of the out-of-order scenario, selector `{"app=x"}`. -/
def depPropsX : DeployProps :=
  { name := "d1", kind := "Deployment", created := "t2",
    replicas := some 1, ready_replicas := some 1 }

/-- Store after upserting the pod before any deployment exists. -/
def stateA : GraphState := upsert_pod podPropsX podLabelsX (some "default") none emptyStore

/-- Store after then upserting the deployment with selector `{"app=x"}`. -/
def stateB : GraphState := upsert_deployment depPropsX podLabelsX none podLabelsX stateA

/-- Store after re-upserting the same pod. -/
def stateC : GraphState := upsert_pod podPropsX podLabelsX (some "default") none stateB

/-- The pod `p1` as stored in `stateB`. -/
def storedP1 : Pod :=
  { name := "p1", kind := "Pod", created := "t1", status := some "Running",
    pod_ip := some "10.0.0.1", labels := some ["app=x"] }

/-- The deployment `d1` as stored in `stateB`. -/
def storedD1 : Deployment :=
  { name := "d1", kind := "Deployment", created := "t2", replicas := some 1,
    ready_replicas := some 1, labels := some ["app=x"],
    selector := some ["app=x"] }

/-- A second pod, observed without a pod IP. -/
def podPropsB : PodProps :=
  { name := "b", kind := "Pod", created := "t3",
    status := some "Pending", pod_ip := none }

/-- Store with a deployment upserted from an empty selector dictionary
(the stored selector stays `null`). -/
def emptySelState : GraphState :=
  upsert_deployment
    { name := "d3", kind := "Deployment", created := "t5",
      replicas := some 1, ready_replicas := some 1 } [] none [] stateA

/-- Store with one node `n1`. -/
def nodeState : GraphState :=
  create_node { name := "n1", kind := "Node", created := "t0" } emptyStore

/-- Store with node `n1` and namespace `ns1`. -/
def nsState : GraphState :=
  upsert_namespace
    { name := "ns1", kind := "Namespace", created := "t0",
      status := some "Active" } nodeState

/-- The pod `p` observed first without an IP. -/
def podPropsP0 : PodProps :=
  { name := "p", kind := "Pod", created := "t", status := some "Pending",
    pod_ip := none }

/-- The pod `p` observed again once scheduled, with an IP. -/
def podPropsP1 : PodProps :=
  { name := "p", kind := "Pod", created := "t", status := some "Running",
    pod_ip := some "10.0.0.5" }

/-- Store after upserting the IP-less pod with node and namespace hints. -/
def noIpState : GraphState :=
  upsert_pod podPropsP0 [("a", "1")] (some "ns1") (some "n1") nsState

/-- Store after re-upserting the pod once it has an IP. -/
def withIpState : GraphState :=
  upsert_pod podPropsP1 [("a", "1")] (some "ns1") (some "n1") noIpState

/-- A deployment upserted with a namespace hint, for the associateTo edge. -/
def depProps9 : DeployProps :=
  { name := "d9", kind := "Deployment", created := "t9",
    replicas := some 2, ready_replicas := some 2 }

/-- Deployment props with three replicas and zero ready replicas, exactly as
`watch_deployment` produces them for a fresh deployment
(`status.ready_replicas` is `None`, normalized to `0`). -/
def zeroReadyProps : DeployProps :=
  build_deployment_props "d2" "Deployment" "t4" (some 3) none

/-- A pod ADDED event whose object is missing `creation_timestamp`:
normalization raises. -/
def badObj : RawPodObject :=
  { name := "px", kind := "Pod", creation_timestamp := none,
    labels := [], nspace := none, node_name := none, phase := none,
    pod_ip := none }

/-- The malformed event wrapped as an ADDED event. -/
def badEvt : RawPodEvent := { type := "ADDED", object := badObj }

/-- A well-formed pod ADDED event for pod `p2`. -/
def goodObj : RawPodObject :=
  { name := "p2", kind := "Pod", creation_timestamp := some "t9",
    labels := [], nspace := none, node_name := none,
    phase := some "Running", pod_ip := some "10.0.0.9" }

/-- The well-formed event wrapped as an ADDED event. -/
def goodEvt : RawPodEvent := { type := "ADDED", object := goodObj }

/-! Lemmas about create-if-absent edge insertion and the edge fold. -/

theorem edgeFold_nil (cond : Pod → Bool) (mk : Pod → String × String) (es) :
    edgeFold cond mk [] es = es := rfl

theorem edgeFold_cons (cond : Pod → Bool) (mk : Pod → String × String)
    (p : Pod) (ps : List Pod) (es) :
    edgeFold cond mk (p :: ps) es =
      edgeFold cond mk ps (if cond p then insertEdge (mk p) es else es) := rfl

theorem mem_insertEdge_self (e : String × String) (es : List (String × String)) :
    e ∈ insertEdge e es := by
  unfold insertEdge; split
  · assumption
  · exact List.mem_append_right _ (List.mem_singleton.mpr rfl)

theorem mem_insertEdge_of_mem {x e : String × String} {es : List (String × String)}
    (h : x ∈ es) : x ∈ insertEdge e es := by
  unfold insertEdge; split
  · exact h
  · exact List.mem_append_left _ h

theorem insertEdge_eq_of_mem {e : String × String} {es : List (String × String)}
    (h : e ∈ es) : insertEdge e es = es := by
  unfold insertEdge; simp [h]

theorem mem_of_mem_insertEdge {x e : String × String} {es : List (String × String)}
    (h : x ∈ insertEdge e es) : x = e ∨ x ∈ es := by
  unfold insertEdge at h; split at h
  · exact Or.inr h
  · rcases List.mem_append.mp h with h1 | h2
    · exact Or.inr h1
    · exact Or.inl (List.mem_singleton.mp h2)

theorem mem_edgeFold_of_mem {cond : Pod → Bool} {mk : Pod → String × String}
    {pods : List Pod} {es : List (String × String)} {x : String × String}
    (h : x ∈ es) : x ∈ edgeFold cond mk pods es := by
  induction pods generalizing es with
  | nil => exact h
  | cons p ps ih =>
      rw [edgeFold_cons]
      split
      · exact ih (mem_insertEdge_of_mem h)
      · exact ih h

theorem mem_edgeFold_self {cond : Pod → Bool} {mk : Pod → String × String}
    {pods : List Pod} {es : List (String × String)} {p : Pod}
    (hp : p ∈ pods) (hc : cond p = true) : mk p ∈ edgeFold cond mk pods es := by
  induction pods generalizing es with
  | nil => cases hp
  | cons q ps ih =>
      rw [edgeFold_cons]
      rcases List.mem_cons.mp hp with h | h
      · subst h
        rw [if_pos hc]
        exact mem_edgeFold_of_mem (mem_insertEdge_self _ _)
      · exact ih h

theorem edgeFold_eq_self {cond : Pod → Bool} {mk : Pod → String × String}
    {pods : List Pod} {es : List (String × String)}
    (h : ∀ p ∈ pods, cond p = true → mk p ∈ es) :
    edgeFold cond mk pods es = es := by
  induction pods with
  | nil => rfl
  | cons q ps ih =>
      rw [edgeFold_cons]
      by_cases hc : cond q = true
      · rw [if_pos hc, insertEdge_eq_of_mem (h q (List.mem_cons_self _ _) hc)]
        exact ih fun p hp hcp => h p (List.mem_cons_of_mem _ hp) hcp
      · rw [if_neg hc]
        exact ih fun p hp hcp => h p (List.mem_cons_of_mem _ hp) hcp

theorem mem_edgeFold_elim {cond : Pod → Bool} {mk : Pod → String × String}
    {pods : List Pod} {es : List (String × String)} {x : String × String}
    (h : x ∈ edgeFold cond mk pods es) :
    x ∈ es ∨ ∃ p ∈ pods, cond p = true ∧ mk p = x := by
  induction pods generalizing es with
  | nil => exact Or.inl h
  | cons q ps ih =>
      rw [edgeFold_cons] at h
      rcases ih h with h1 | ⟨p, hp, hc, he⟩
      · by_cases hcq : cond q = true
        · rw [if_pos hcq] at h1
          rcases mem_of_mem_insertEdge h1 with h2 | h2
          · exact Or.inr ⟨q, List.mem_cons_self _ _, hcq, h2.symm⟩
          · exact Or.inl h2
        · rw [if_neg hcq] at h1
          exact Or.inl h1
      · exact Or.inr ⟨p, List.mem_cons_of_mem _ hp, hc, he⟩

/-! Structure-update lemmas: writing a field back with its current value is
the identity. -/

theorem upd_pods_self {s : GraphState} {l : List Pod} (h : l = s.pods) :
    { s with pods := l } = s := by cases s; subst h; rfl

theorem upd_namespaces_self {s : GraphState} {l : List NamespaceEnt}
    (h : l = s.namespaces) : { s with namespaces := l } = s := by
  cases s; subst h; rfl

theorem upd_deployments_self {s : GraphState} {l : List Deployment}
    (h : l = s.deployments) : { s with deployments := l } = s := by
  cases s; subst h; rfl

theorem upd_runsOn_self {s : GraphState} {l : List (String × String)}
    (h : l = s.runsOn) : { s with runsOn := l } = s := by cases s; subst h; rfl

theorem upd_podNamespace_self {s : GraphState} {l : List (String × String)}
    (h : l = s.podNamespace) : { s with podNamespace := l } = s := by
  cases s; subst h; rfl

theorem upd_depNamespace_self {s : GraphState} {l : List (String × String)}
    (h : l = s.depNamespace) : { s with depNamespace := l } = s := by
  cases s; subst h; rfl

theorem upd_scheduledTo_self {s : GraphState} {l : List (String × String)}
    (h : l = s.scheduledTo) : { s with scheduledTo := l } = s := by
  cases s; subst h; rfl

/-! Frame lemmas: each store statement touches exactly one component. -/

@[simp] theorem mergePod_nodes (nm kd cr : String) (s : GraphState) :
    (mergePod nm kd cr s).nodes = s.nodes := by unfold mergePod; split <;> rfl

@[simp] theorem mergePod_namespaces (nm kd cr : String) (s : GraphState) :
    (mergePod nm kd cr s).namespaces = s.namespaces := by
  unfold mergePod; split <;> rfl

@[simp] theorem mergePod_deployments (nm kd cr : String) (s : GraphState) :
    (mergePod nm kd cr s).deployments = s.deployments := by
  unfold mergePod; split <;> rfl

@[simp] theorem mergePod_runsOn (nm kd cr : String) (s : GraphState) :
    (mergePod nm kd cr s).runsOn = s.runsOn := by unfold mergePod; split <;> rfl

@[simp] theorem mergePod_podNamespace (nm kd cr : String) (s : GraphState) :
    (mergePod nm kd cr s).podNamespace = s.podNamespace := by
  unfold mergePod; split <;> rfl

@[simp] theorem mergePod_depNamespace (nm kd cr : String) (s : GraphState) :
    (mergePod nm kd cr s).depNamespace = s.depNamespace := by
  unfold mergePod; split <;> rfl

@[simp] theorem mergePod_scheduledTo (nm kd cr : String) (s : GraphState) :
    (mergePod nm kd cr s).scheduledTo = s.scheduledTo := by
  unfold mergePod; split <;> rfl

@[simp] theorem mapPods_pods (f : Pod → Pod) (s : GraphState) :
    (mapPods f s).pods = s.pods.map f := rfl

@[simp] theorem mapPods_nodes (f : Pod → Pod) (s : GraphState) :
    (mapPods f s).nodes = s.nodes := rfl

@[simp] theorem mapPods_namespaces (f : Pod → Pod) (s : GraphState) :
    (mapPods f s).namespaces = s.namespaces := rfl

@[simp] theorem mapPods_deployments (f : Pod → Pod) (s : GraphState) :
    (mapPods f s).deployments = s.deployments := rfl

@[simp] theorem mapPods_runsOn (f : Pod → Pod) (s : GraphState) :
    (mapPods f s).runsOn = s.runsOn := rfl

@[simp] theorem mapPods_podNamespace (f : Pod → Pod) (s : GraphState) :
    (mapPods f s).podNamespace = s.podNamespace := rfl

@[simp] theorem mapPods_depNamespace (f : Pod → Pod) (s : GraphState) :
    (mapPods f s).depNamespace = s.depNamespace := rfl

@[simp] theorem mapPods_scheduledTo (f : Pod → Pod) (s : GraphState) :
    (mapPods f s).scheduledTo = s.scheduledTo := rfl

@[simp] theorem addSchedEdgesFor_nodes (dn : String) (sel : List String)
    (s : GraphState) : (addSchedEdgesFor dn sel s).nodes = s.nodes := by
  unfold addSchedEdgesFor; split <;> rfl

@[simp] theorem addSchedEdgesFor_namespaces (dn : String) (sel : List String)
    (s : GraphState) : (addSchedEdgesFor dn sel s).namespaces = s.namespaces := by
  unfold addSchedEdgesFor; split <;> rfl

@[simp] theorem addSchedEdgesFor_pods (dn : String) (sel : List String)
    (s : GraphState) : (addSchedEdgesFor dn sel s).pods = s.pods := by
  unfold addSchedEdgesFor; split <;> rfl

@[simp] theorem addSchedEdgesFor_deployments (dn : String) (sel : List String)
    (s : GraphState) : (addSchedEdgesFor dn sel s).deployments = s.deployments := by
  unfold addSchedEdgesFor; split <;> rfl

@[simp] theorem addSchedEdgesFor_runsOn (dn : String) (sel : List String)
    (s : GraphState) : (addSchedEdgesFor dn sel s).runsOn = s.runsOn := by
  unfold addSchedEdgesFor; split <;> rfl

@[simp] theorem addSchedEdgesFor_podNamespace (dn : String) (sel : List String)
    (s : GraphState) : (addSchedEdgesFor dn sel s).podNamespace = s.podNamespace := by
  unfold addSchedEdgesFor; split <;> rfl

@[simp] theorem addSchedEdgesFor_depNamespace (dn : String) (sel : List String)
    (s : GraphState) : (addSchedEdgesFor dn sel s).depNamespace = s.depNamespace := by
  unfold addSchedEdgesFor; split <;> rfl

theorem scanDeps_nil (s : GraphState) : scanDeps [] s = s := rfl

theorem scanDeps_cons (pr : String × Option (List String))
    (deps : List (String × Option (List String))) (s : GraphState) :
    scanDeps (pr :: deps) s =
      scanDeps deps
        (match pr.2 with
         | some sel => if sel.isEmpty then s else addSchedEdgesFor pr.1 sel s
         | none => s) := rfl

@[simp] theorem scanDeps_pods (deps : List (String × Option (List String)))
    (s : GraphState) : (scanDeps deps s).pods = s.pods := by
  induction deps generalizing s with
  | nil => rfl
  | cons pr deps ih =>
      rw [scanDeps_cons, ih]
      rcases pr with ⟨dn, osel⟩
      cases osel with
      | none => rfl
      | some sel => by_cases h : sel.isEmpty <;> simp [h]

@[simp] theorem scanDeps_deployments (deps : List (String × Option (List String)))
    (s : GraphState) : (scanDeps deps s).deployments = s.deployments := by
  induction deps generalizing s with
  | nil => rfl
  | cons pr deps ih =>
      rw [scanDeps_cons, ih]
      rcases pr with ⟨dn, osel⟩
      cases osel with
      | none => rfl
      | some sel => by_cases h : sel.isEmpty <;> simp [h]

@[simp] theorem scanDeps_nodes (deps : List (String × Option (List String)))
    (s : GraphState) : (scanDeps deps s).nodes = s.nodes := by
  induction deps generalizing s with
  | nil => rfl
  | cons pr deps ih =>
      rw [scanDeps_cons, ih]
      rcases pr with ⟨dn, osel⟩
      cases osel with
      | none => rfl
      | some sel => by_cases h : sel.isEmpty <;> simp [h]

@[simp] theorem scanDeps_namespaces (deps : List (String × Option (List String)))
    (s : GraphState) : (scanDeps deps s).namespaces = s.namespaces := by
  induction deps generalizing s with
  | nil => rfl
  | cons pr deps ih =>
      rw [scanDeps_cons, ih]
      rcases pr with ⟨dn, osel⟩
      cases osel with
      | none => rfl
      | some sel => by_cases h : sel.isEmpty <;> simp [h]

@[simp] theorem scanDeps_runsOn (deps : List (String × Option (List String)))
    (s : GraphState) : (scanDeps deps s).runsOn = s.runsOn := by
  induction deps generalizing s with
  | nil => rfl
  | cons pr deps ih =>
      rw [scanDeps_cons, ih]
      rcases pr with ⟨dn, osel⟩
      cases osel with
      | none => rfl
      | some sel => by_cases h : sel.isEmpty <;> simp [h]

@[simp] theorem scanDeps_podNamespace (deps : List (String × Option (List String)))
    (s : GraphState) : (scanDeps deps s).podNamespace = s.podNamespace := by
  induction deps generalizing s with
  | nil => rfl
  | cons pr deps ih =>
      rw [scanDeps_cons, ih]
      rcases pr with ⟨dn, osel⟩
      cases osel with
      | none => rfl
      | some sel => by_cases h : sel.isEmpty <;> simp [h]

@[simp] theorem scanDeps_depNamespace (deps : List (String × Option (List String)))
    (s : GraphState) : (scanDeps deps s).depNamespace = s.depNamespace := by
  induction deps generalizing s with
  | nil => rfl
  | cons pr deps ih =>
      rw [scanDeps_cons, ih]
      rcases pr with ⟨dn, osel⟩
      cases osel with
      | none => rfl
      | some sel => by_cases h : sel.isEmpty <;> simp [h]

@[simp] theorem add_pod_to_node_nodes (q : Option String) (nn : String)
    (s : GraphState) : (add_pod_to_node q nn s).nodes = s.nodes := by
  unfold add_pod_to_node; split <;> rfl

@[simp] theorem add_pod_to_node_namespaces (q : Option String) (nn : String)
    (s : GraphState) : (add_pod_to_node q nn s).namespaces = s.namespaces := by
  unfold add_pod_to_node; split <;> rfl

@[simp] theorem add_pod_to_node_pods (q : Option String) (nn : String)
    (s : GraphState) : (add_pod_to_node q nn s).pods = s.pods := by
  unfold add_pod_to_node; split <;> rfl

@[simp] theorem add_pod_to_node_deployments (q : Option String) (nn : String)
    (s : GraphState) : (add_pod_to_node q nn s).deployments = s.deployments := by
  unfold add_pod_to_node; split <;> rfl

@[simp] theorem add_pod_to_node_podNamespace (q : Option String) (nn : String)
    (s : GraphState) : (add_pod_to_node q nn s).podNamespace = s.podNamespace := by
  unfold add_pod_to_node; split <;> rfl

@[simp] theorem add_pod_to_node_depNamespace (q : Option String) (nn : String)
    (s : GraphState) : (add_pod_to_node q nn s).depNamespace = s.depNamespace := by
  unfold add_pod_to_node; split <;> rfl

@[simp] theorem add_pod_to_node_scheduledTo (q : Option String) (nn : String)
    (s : GraphState) : (add_pod_to_node q nn s).scheduledTo = s.scheduledTo := by
  unfold add_pod_to_node; split <;> rfl

@[simp] theorem add_pod_to_namespace_nodes (q : Option String) (ns : String)
    (s : GraphState) : (add_pod_to_namespace q ns s).nodes = s.nodes := by
  unfold add_pod_to_namespace; split <;> rfl

@[simp] theorem add_pod_to_namespace_namespaces (q : Option String) (ns : String)
    (s : GraphState) : (add_pod_to_namespace q ns s).namespaces = s.namespaces := by
  unfold add_pod_to_namespace; split <;> rfl

@[simp] theorem add_pod_to_namespace_pods (q : Option String) (ns : String)
    (s : GraphState) : (add_pod_to_namespace q ns s).pods = s.pods := by
  unfold add_pod_to_namespace; split <;> rfl

@[simp] theorem add_pod_to_namespace_deployments (q : Option String) (ns : String)
    (s : GraphState) : (add_pod_to_namespace q ns s).deployments = s.deployments := by
  unfold add_pod_to_namespace; split <;> rfl

@[simp] theorem add_pod_to_namespace_runsOn (q : Option String) (ns : String)
    (s : GraphState) : (add_pod_to_namespace q ns s).runsOn = s.runsOn := by
  unfold add_pod_to_namespace; split <;> rfl

@[simp] theorem add_pod_to_namespace_depNamespace (q : Option String) (ns : String)
    (s : GraphState) : (add_pod_to_namespace q ns s).depNamespace = s.depNamespace := by
  unfold add_pod_to_namespace; split <;> rfl

@[simp] theorem add_pod_to_namespace_scheduledTo (q : Option String) (ns : String)
    (s : GraphState) : (add_pod_to_namespace q ns s).scheduledTo = s.scheduledTo := by
  unfold add_pod_to_namespace; split <;> rfl

@[simp] theorem podNodeStep_nodes (q onn : Option String) (s : GraphState) :
    (podNodeStep q onn s).nodes = s.nodes := by
  unfold podNodeStep; rcases onn with _ | nn
  · rfl
  · by_cases h : nn = "" <;> simp [h]

@[simp] theorem podNodeStep_namespaces (q onn : Option String) (s : GraphState) :
    (podNodeStep q onn s).namespaces = s.namespaces := by
  unfold podNodeStep; rcases onn with _ | nn
  · rfl
  · by_cases h : nn = "" <;> simp [h]

@[simp] theorem podNodeStep_pods (q onn : Option String) (s : GraphState) :
    (podNodeStep q onn s).pods = s.pods := by
  unfold podNodeStep; rcases onn with _ | nn
  · rfl
  · by_cases h : nn = "" <;> simp [h]

@[simp] theorem podNodeStep_deployments (q onn : Option String) (s : GraphState) :
    (podNodeStep q onn s).deployments = s.deployments := by
  unfold podNodeStep; rcases onn with _ | nn
  · rfl
  · by_cases h : nn = "" <;> simp [h]

@[simp] theorem podNodeStep_podNamespace (q onn : Option String) (s : GraphState) :
    (podNodeStep q onn s).podNamespace = s.podNamespace := by
  unfold podNodeStep; rcases onn with _ | nn
  · rfl
  · by_cases h : nn = "" <;> simp [h]

@[simp] theorem podNodeStep_depNamespace (q onn : Option String) (s : GraphState) :
    (podNodeStep q onn s).depNamespace = s.depNamespace := by
  unfold podNodeStep; rcases onn with _ | nn
  · rfl
  · by_cases h : nn = "" <;> simp [h]

@[simp] theorem podNodeStep_scheduledTo (q onn : Option String) (s : GraphState) :
    (podNodeStep q onn s).scheduledTo = s.scheduledTo := by
  unfold podNodeStep; rcases onn with _ | nn
  · rfl
  · by_cases h : nn = "" <;> simp [h]

@[simp] theorem podNsStep_nodes (q ons : Option String) (s : GraphState) :
    (podNsStep q ons s).nodes = s.nodes := by
  unfold podNsStep; rcases ons with _ | ns
  · rfl
  · by_cases h : ns = "" <;> simp [h]

@[simp] theorem podNsStep_namespaces (q ons : Option String) (s : GraphState) :
    (podNsStep q ons s).namespaces = s.namespaces := by
  unfold podNsStep; rcases ons with _ | ns
  · rfl
  · by_cases h : ns = "" <;> simp [h]

@[simp] theorem podNsStep_pods (q ons : Option String) (s : GraphState) :
    (podNsStep q ons s).pods = s.pods := by
  unfold podNsStep; rcases ons with _ | ns
  · rfl
  · by_cases h : ns = "" <;> simp [h]

@[simp] theorem podNsStep_deployments (q ons : Option String) (s : GraphState) :
    (podNsStep q ons s).deployments = s.deployments := by
  unfold podNsStep; rcases ons with _ | ns
  · rfl
  · by_cases h : ns = "" <;> simp [h]

@[simp] theorem podNsStep_runsOn (q ons : Option String) (s : GraphState) :
    (podNsStep q ons s).runsOn = s.runsOn := by
  unfold podNsStep; rcases ons with _ | ns
  · rfl
  · by_cases h : ns = "" <;> simp [h]

@[simp] theorem podNsStep_depNamespace (q ons : Option String) (s : GraphState) :
    (podNsStep q ons s).depNamespace = s.depNamespace := by
  unfold podNsStep; rcases ons with _ | ns
  · rfl
  · by_cases h : ns = "" <;> simp [h]

@[simp] theorem podNsStep_scheduledTo (q ons : Option String) (s : GraphState) :
    (podNsStep q ons s).scheduledTo = s.scheduledTo := by
  unfold podNsStep; rcases ons with _ | ns
  · rfl
  · by_cases h : ns = "" <;> simp [h]

@[simp] theorem podIpStatusStep_nodes (props : PodProps) (s : GraphState) :
    (podIpStatusStep props s).nodes = s.nodes := by
  unfold podIpStatusStep setIpStatus; split <;> rfl

@[simp] theorem podIpStatusStep_namespaces (props : PodProps) (s : GraphState) :
    (podIpStatusStep props s).namespaces = s.namespaces := by
  unfold podIpStatusStep setIpStatus; split <;> rfl

@[simp] theorem podIpStatusStep_deployments (props : PodProps) (s : GraphState) :
    (podIpStatusStep props s).deployments = s.deployments := by
  unfold podIpStatusStep setIpStatus; split <;> rfl

@[simp] theorem podIpStatusStep_runsOn (props : PodProps) (s : GraphState) :
    (podIpStatusStep props s).runsOn = s.runsOn := by
  unfold podIpStatusStep setIpStatus; split <;> rfl

@[simp] theorem podIpStatusStep_podNamespace (props : PodProps) (s : GraphState) :
    (podIpStatusStep props s).podNamespace = s.podNamespace := by
  unfold podIpStatusStep setIpStatus; split <;> rfl

@[simp] theorem podIpStatusStep_depNamespace (props : PodProps) (s : GraphState) :
    (podIpStatusStep props s).depNamespace = s.depNamespace := by
  unfold podIpStatusStep setIpStatus; split <;> rfl

@[simp] theorem podIpStatusStep_scheduledTo (props : PodProps) (s : GraphState) :
    (podIpStatusStep props s).scheduledTo = s.scheduledTo := by
  unfold podIpStatusStep setIpStatus; split <;> rfl

@[simp] theorem podLabelsStep_nodes (q : Option String)
    (labels : List (String × String)) (s : GraphState) :
    (podLabelsStep q labels s).nodes = s.nodes := by
  unfold podLabelsStep deployScan update_pod_label; split <;> simp

@[simp] theorem podLabelsStep_namespaces (q : Option String)
    (labels : List (String × String)) (s : GraphState) :
    (podLabelsStep q labels s).namespaces = s.namespaces := by
  unfold podLabelsStep deployScan update_pod_label; split <;> simp

@[simp] theorem podLabelsStep_deployments (q : Option String)
    (labels : List (String × String)) (s : GraphState) :
    (podLabelsStep q labels s).deployments = s.deployments := by
  unfold podLabelsStep deployScan update_pod_label; split <;> simp

@[simp] theorem podLabelsStep_runsOn (q : Option String)
    (labels : List (String × String)) (s : GraphState) :
    (podLabelsStep q labels s).runsOn = s.runsOn := by
  unfold podLabelsStep deployScan update_pod_label; split <;> simp

@[simp] theorem podLabelsStep_podNamespace (q : Option String)
    (labels : List (String × String)) (s : GraphState) :
    (podLabelsStep q labels s).podNamespace = s.podNamespace := by
  unfold podLabelsStep deployScan update_pod_label; split <;> simp

@[simp] theorem podLabelsStep_depNamespace (q : Option String)
    (labels : List (String × String)) (s : GraphState) :
    (podLabelsStep q labels s).depNamespace = s.depNamespace := by
  unfold podLabelsStep deployScan update_pod_label; split <;> simp

@[simp] theorem upsert_pod_nodes (props : PodProps) (labels : List (String × String))
    (nspace node_name : Option String) (s : GraphState) :
    (upsert_pod props labels nspace node_name s).nodes = s.nodes := by
  unfold upsert_pod; simp

@[simp] theorem upsert_pod_namespaces (props : PodProps)
    (labels : List (String × String)) (nspace node_name : Option String)
    (s : GraphState) :
    (upsert_pod props labels nspace node_name s).namespaces = s.namespaces := by
  unfold upsert_pod; simp

@[simp] theorem upsert_pod_deployments (props : PodProps)
    (labels : List (String × String)) (nspace node_name : Option String)
    (s : GraphState) :
    (upsert_pod props labels nspace node_name s).deployments = s.deployments := by
  unfold upsert_pod; simp

@[simp] theorem upsert_pod_depNamespace (props : PodProps)
    (labels : List (String × String)) (nspace node_name : Option String)
    (s : GraphState) :
    (upsert_pod props labels nspace node_name s).depNamespace = s.depNamespace := by
  unfold upsert_pod; simp

@[simp] theorem mergeDeployment_nodes (nm kd cr : String) (s : GraphState) :
    (mergeDeployment nm kd cr s).nodes = s.nodes := by
  unfold mergeDeployment; split <;> rfl

@[simp] theorem mergeDeployment_namespaces (nm kd cr : String) (s : GraphState) :
    (mergeDeployment nm kd cr s).namespaces = s.namespaces := by
  unfold mergeDeployment; split <;> rfl

@[simp] theorem mergeDeployment_pods (nm kd cr : String) (s : GraphState) :
    (mergeDeployment nm kd cr s).pods = s.pods := by
  unfold mergeDeployment; split <;> rfl

@[simp] theorem mergeDeployment_runsOn (nm kd cr : String) (s : GraphState) :
    (mergeDeployment nm kd cr s).runsOn = s.runsOn := by
  unfold mergeDeployment; split <;> rfl

@[simp] theorem mergeDeployment_podNamespace (nm kd cr : String) (s : GraphState) :
    (mergeDeployment nm kd cr s).podNamespace = s.podNamespace := by
  unfold mergeDeployment; split <;> rfl

@[simp] theorem mergeDeployment_depNamespace (nm kd cr : String) (s : GraphState) :
    (mergeDeployment nm kd cr s).depNamespace = s.depNamespace := by
  unfold mergeDeployment; split <;> rfl

@[simp] theorem mergeDeployment_scheduledTo (nm kd cr : String) (s : GraphState) :
    (mergeDeployment nm kd cr s).scheduledTo = s.scheduledTo := by
  unfold mergeDeployment; split <;> rfl

@[simp] theorem mapDeps_deployments (f : Deployment → Deployment) (s : GraphState) :
    (mapDeps f s).deployments = s.deployments.map f := rfl

@[simp] theorem mapDeps_nodes (f : Deployment → Deployment) (s : GraphState) :
    (mapDeps f s).nodes = s.nodes := rfl

@[simp] theorem mapDeps_namespaces (f : Deployment → Deployment) (s : GraphState) :
    (mapDeps f s).namespaces = s.namespaces := rfl

@[simp] theorem mapDeps_pods (f : Deployment → Deployment) (s : GraphState) :
    (mapDeps f s).pods = s.pods := rfl

@[simp] theorem mapDeps_runsOn (f : Deployment → Deployment) (s : GraphState) :
    (mapDeps f s).runsOn = s.runsOn := rfl

@[simp] theorem mapDeps_podNamespace (f : Deployment → Deployment) (s : GraphState) :
    (mapDeps f s).podNamespace = s.podNamespace := rfl

@[simp] theorem mapDeps_depNamespace (f : Deployment → Deployment) (s : GraphState) :
    (mapDeps f s).depNamespace = s.depNamespace := rfl

@[simp] theorem mapDeps_scheduledTo (f : Deployment → Deployment) (s : GraphState) :
    (mapDeps f s).scheduledTo = s.scheduledTo := rfl

@[simp] theorem addDepToNamespace_nodes (dn ns : String) (s : GraphState) :
    (addDepToNamespace dn ns s).nodes = s.nodes := by
  unfold addDepToNamespace; split <;> rfl

@[simp] theorem addDepToNamespace_namespaces (dn ns : String) (s : GraphState) :
    (addDepToNamespace dn ns s).namespaces = s.namespaces := by
  unfold addDepToNamespace; split <;> rfl

@[simp] theorem addDepToNamespace_pods (dn ns : String) (s : GraphState) :
    (addDepToNamespace dn ns s).pods = s.pods := by
  unfold addDepToNamespace; split <;> rfl

@[simp] theorem addDepToNamespace_deployments (dn ns : String) (s : GraphState) :
    (addDepToNamespace dn ns s).deployments = s.deployments := by
  unfold addDepToNamespace; split <;> rfl

@[simp] theorem addDepToNamespace_runsOn (dn ns : String) (s : GraphState) :
    (addDepToNamespace dn ns s).runsOn = s.runsOn := by
  unfold addDepToNamespace; split <;> rfl

@[simp] theorem addDepToNamespace_podNamespace (dn ns : String) (s : GraphState) :
    (addDepToNamespace dn ns s).podNamespace = s.podNamespace := by
  unfold addDepToNamespace; split <;> rfl

@[simp] theorem addDepToNamespace_scheduledTo (dn ns : String) (s : GraphState) :
    (addDepToNamespace dn ns s).scheduledTo = s.scheduledTo := by
  unfold addDepToNamespace; split <;> rfl

@[simp] theorem depReplicasStep_nodes (props : DeployProps) (s : GraphState) :
    (depReplicasStep props s).nodes = s.nodes := by
  unfold depReplicasStep setReplicas; split <;> simp

@[simp] theorem depReplicasStep_namespaces (props : DeployProps) (s : GraphState) :
    (depReplicasStep props s).namespaces = s.namespaces := by
  unfold depReplicasStep setReplicas; split <;> simp

@[simp] theorem depReplicasStep_pods (props : DeployProps) (s : GraphState) :
    (depReplicasStep props s).pods = s.pods := by
  unfold depReplicasStep setReplicas; split <;> simp

@[simp] theorem depReplicasStep_runsOn (props : DeployProps) (s : GraphState) :
    (depReplicasStep props s).runsOn = s.runsOn := by
  unfold depReplicasStep setReplicas; split <;> simp

@[simp] theorem depReplicasStep_podNamespace (props : DeployProps) (s : GraphState) :
    (depReplicasStep props s).podNamespace = s.podNamespace := by
  unfold depReplicasStep setReplicas; split <;> simp

@[simp] theorem depReplicasStep_depNamespace (props : DeployProps) (s : GraphState) :
    (depReplicasStep props s).depNamespace = s.depNamespace := by
  unfold depReplicasStep setReplicas; split <;> simp

@[simp] theorem depReplicasStep_scheduledTo (props : DeployProps) (s : GraphState) :
    (depReplicasStep props s).scheduledTo = s.scheduledTo := by
  unfold depReplicasStep setReplicas; split <;> simp

@[simp] theorem depLabelsStep_nodes (nm : String) (labels : List (String × String))
    (s : GraphState) : (depLabelsStep nm labels s).nodes = s.nodes := by
  unfold depLabelsStep setDepLabels; split <;> simp

@[simp] theorem depLabelsStep_namespaces (nm : String)
    (labels : List (String × String)) (s : GraphState) :
    (depLabelsStep nm labels s).namespaces = s.namespaces := by
  unfold depLabelsStep setDepLabels; split <;> simp

@[simp] theorem depLabelsStep_pods (nm : String) (labels : List (String × String))
    (s : GraphState) : (depLabelsStep nm labels s).pods = s.pods := by
  unfold depLabelsStep setDepLabels; split <;> simp

@[simp] theorem depLabelsStep_runsOn (nm : String) (labels : List (String × String))
    (s : GraphState) : (depLabelsStep nm labels s).runsOn = s.runsOn := by
  unfold depLabelsStep setDepLabels; split <;> simp

@[simp] theorem depLabelsStep_podNamespace (nm : String)
    (labels : List (String × String)) (s : GraphState) :
    (depLabelsStep nm labels s).podNamespace = s.podNamespace := by
  unfold depLabelsStep setDepLabels; split <;> simp

@[simp] theorem depLabelsStep_depNamespace (nm : String)
    (labels : List (String × String)) (s : GraphState) :
    (depLabelsStep nm labels s).depNamespace = s.depNamespace := by
  unfold depLabelsStep setDepLabels; split <;> simp

@[simp] theorem depLabelsStep_scheduledTo (nm : String)
    (labels : List (String × String)) (s : GraphState) :
    (depLabelsStep nm labels s).scheduledTo = s.scheduledTo := by
  unfold depLabelsStep setDepLabels; split <;> simp

@[simp] theorem depNsStep_nodes (nm : String) (ons : Option String)
    (s : GraphState) : (depNsStep nm ons s).nodes = s.nodes := by
  unfold depNsStep; rcases ons with _ | ns
  · rfl
  · by_cases h : ns = "" <;> simp [h]

@[simp] theorem depNsStep_namespaces (nm : String) (ons : Option String)
    (s : GraphState) : (depNsStep nm ons s).namespaces = s.namespaces := by
  unfold depNsStep; rcases ons with _ | ns
  · rfl
  · by_cases h : ns = "" <;> simp [h]

@[simp] theorem depNsStep_pods (nm : String) (ons : Option String)
    (s : GraphState) : (depNsStep nm ons s).pods = s.pods := by
  unfold depNsStep; rcases ons with _ | ns
  · rfl
  · by_cases h : ns = "" <;> simp [h]

@[simp] theorem depNsStep_deployments (nm : String) (ons : Option String)
    (s : GraphState) : (depNsStep nm ons s).deployments = s.deployments := by
  unfold depNsStep; rcases ons with _ | ns
  · rfl
  · by_cases h : ns = "" <;> simp [h]

@[simp] theorem depNsStep_runsOn (nm : String) (ons : Option String)
    (s : GraphState) : (depNsStep nm ons s).runsOn = s.runsOn := by
  unfold depNsStep; rcases ons with _ | ns
  · rfl
  · by_cases h : ns = "" <;> simp [h]

@[simp] theorem depNsStep_podNamespace (nm : String) (ons : Option String)
    (s : GraphState) : (depNsStep nm ons s).podNamespace = s.podNamespace := by
  unfold depNsStep; rcases ons with _ | ns
  · rfl
  · by_cases h : ns = "" <;> simp [h]

@[simp] theorem depNsStep_scheduledTo (nm : String) (ons : Option String)
    (s : GraphState) : (depNsStep nm ons s).scheduledTo = s.scheduledTo := by
  unfold depNsStep; rcases ons with _ | ns
  · rfl
  · by_cases h : ns = "" <;> simp [h]

@[simp] theorem depSelectorStep_nodes (nm : String)
    (selector : List (String × String)) (s : GraphState) :
    (depSelectorStep nm selector s).nodes = s.nodes := by
  unfold depSelectorStep setDepSelector; split <;> simp

@[simp] theorem depSelectorStep_namespaces (nm : String)
    (selector : List (String × String)) (s : GraphState) :
    (depSelectorStep nm selector s).namespaces = s.namespaces := by
  unfold depSelectorStep setDepSelector; split <;> simp

@[simp] theorem depSelectorStep_pods (nm : String)
    (selector : List (String × String)) (s : GraphState) :
    (depSelectorStep nm selector s).pods = s.pods := by
  unfold depSelectorStep setDepSelector; split <;> simp

@[simp] theorem depSelectorStep_runsOn (nm : String)
    (selector : List (String × String)) (s : GraphState) :
    (depSelectorStep nm selector s).runsOn = s.runsOn := by
  unfold depSelectorStep setDepSelector; split <;> simp

@[simp] theorem depSelectorStep_podNamespace (nm : String)
    (selector : List (String × String)) (s : GraphState) :
    (depSelectorStep nm selector s).podNamespace = s.podNamespace := by
  unfold depSelectorStep setDepSelector; split <;> simp

@[simp] theorem depSelectorStep_depNamespace (nm : String)
    (selector : List (String × String)) (s : GraphState) :
    (depSelectorStep nm selector s).depNamespace = s.depNamespace := by
  unfold depSelectorStep setDepSelector; split <;> simp

@[simp] theorem depSelectorStep_scheduledTo (nm : String)
    (selector : List (String × String)) (s : GraphState) :
    (depSelectorStep nm selector s).scheduledTo = s.scheduledTo := by
  unfold depSelectorStep setDepSelector; split <;> simp

/-! Pointwise facts about the map functions and the `ipMatch` test. -/

@[simp] theorem ipMatch_none_left (x : Option String) : ipMatch none x = false := by
  cases x <;> rfl

theorem mapSelf {α : Type} {f : α → α} : ∀ {l : List α}, (∀ a ∈ l, f a = a) →
    l.map f = l := by
  intro l
  induction l with
  | nil => intro _; rfl
  | cons a l ih =>
      intro h
      simp only [List.map_cons]
      rw [h a (List.mem_cons_self _ _), ih fun b hb => h b (List.mem_cons_of_mem _ hb)]

theorem Pod_eta_ipStatus {p : Pod} {st ip : Option String}
    (h1 : p.status = st) (h2 : p.pod_ip = ip) :
    ({ p with status := st, pod_ip := ip } : Pod) = p := by
  cases p; cases h1; cases h2; rfl

theorem Pod_eta_labels {p : Pod} {olp : Option (List String)} (h : p.labels = olp) :
    ({ p with labels := olp } : Pod) = p := by
  cases p; cases h; rfl

theorem ipStatusFn_key (nm : String) (st ip : Option String) (p : Pod) :
    (ipStatusFn nm st ip p).name = p.name ∧ (ipStatusFn nm st ip p).kind = p.kind ∧
      (ipStatusFn nm st ip p).created = p.created := by
  unfold ipStatusFn; split <;> exact ⟨rfl, rfl, rfl⟩

theorem ipStatusFn_labels (nm : String) (st ip : Option String) (p : Pod) :
    (ipStatusFn nm st ip p).labels = p.labels := by
  unfold ipStatusFn; split <;> rfl

theorem labelFn_key (q : Option String) (lp : List String) (p : Pod) :
    (labelFn q lp p).name = p.name ∧ (labelFn q lp p).kind = p.kind ∧
      (labelFn q lp p).created = p.created := by
  unfold labelFn; split <;> exact ⟨rfl, rfl, rfl⟩

theorem labelFn_status_ip (q : Option String) (lp : List String) (p : Pod) :
    (labelFn q lp p).status = p.status ∧ (labelFn q lp p).pod_ip = p.pod_ip := by
  unfold labelFn; split <;> exact ⟨rfl, rfl⟩

/-! Membership lemmas for the scheduledTo scan. -/

theorem addSched_mono {dn : String} {sel : List String} {s : GraphState}
    {x : String × String} (h : x ∈ s.scheduledTo) :
    x ∈ (addSchedEdgesFor dn sel s).scheduledTo := by
  unfold addSchedEdgesFor; split
  · exact mem_edgeFold_of_mem h
  · exact h

theorem addSched_elim {dn : String} {sel : List String} {s : GraphState}
    {x : String × String} (h : x ∈ (addSchedEdgesFor dn sel s).scheduledTo) :
    x ∈ s.scheduledTo ∨ ∃ p ∈ s.pods, schedCond sel p = true ∧ x = (dn, p.name) := by
  unfold addSchedEdgesFor at h; split at h
  · rcases mem_edgeFold_elim h with h1 | ⟨p, hp, hc, he⟩
    · exact Or.inl h1
    · exact Or.inr ⟨p, hp, hc, he.symm⟩
  · exact Or.inl h

theorem addSchedEdgesFor_eq_self {dn : String} {sel : List String} {s : GraphState}
    (h : ∀ p ∈ s.pods, schedCond sel p = true → (dn, p.name) ∈ s.scheduledTo) :
    addSchedEdgesFor dn sel s = s := by
  unfold addSchedEdgesFor; split
  · exact upd_scheduledTo_self (edgeFold_eq_self h)
  · rfl

theorem scanDeps_sched_mono {deps : List (String × Option (List String))}
    {s : GraphState} {x : String × String} (h : x ∈ s.scheduledTo) :
    x ∈ (scanDeps deps s).scheduledTo := by
  induction deps generalizing s with
  | nil => exact h
  | cons pr deps ih =>
      rw [scanDeps_cons]
      rcases pr with ⟨dn, osel⟩
      cases osel with
      | none => exact ih h
      | some sel =>
          by_cases he : sel.isEmpty <;> simp only [he, if_true, if_false]
          · exact ih h
          · exact ih (addSched_mono h)

theorem scanDeps_adds {deps : List (String × Option (List String))}
    {s : GraphState} {dn : String} {sel : List String}
    (h1 : (dn, some sel) ∈ deps) (h2 : sel.isEmpty = false)
    (hd : ∃ d ∈ s.deployments, d.name = dn) {p : Pod}
    (hp : p ∈ s.pods) (hc : schedCond sel p = true) :
    (dn, p.name) ∈ (scanDeps deps s).scheduledTo := by
  induction deps generalizing s with
  | nil => cases h1
  | cons pr deps ih =>
      rw [scanDeps_cons]
      rcases List.mem_cons.mp h1 with h | h
      · subst h
        simp only [h2, if_false]
        apply scanDeps_sched_mono
        unfold addSchedEdgesFor
        rw [if_pos hd]
        exact mem_edgeFold_self hp hc
      · rcases pr with ⟨dn', osel'⟩
        cases osel' with
        | none => exact ih h hd hp
        | some sel' =>
            by_cases he : sel'.isEmpty <;> simp only [he, if_true, if_false]
            · exact ih h hd hp
            · refine ih h ?_ ?_
              · simpa using hd
              · simpa using hp

theorem scanDeps_sched_elim {deps : List (String × Option (List String))}
    {s : GraphState} {x : String × String}
    (h : x ∈ (scanDeps deps s).scheduledTo) :
    x ∈ s.scheduledTo ∨ ∃ dn sel, (dn, some sel) ∈ deps ∧ sel.isEmpty = false ∧
      ∃ p ∈ s.pods, schedCond sel p = true ∧ x = (dn, p.name) := by
  induction deps generalizing s with
  | nil => exact Or.inl h
  | cons pr deps ih =>
      rw [scanDeps_cons] at h
      rcases pr with ⟨dn, osel⟩
      cases osel with
      | none =>
          rcases ih h with h1 | ⟨dn', sel', hm, hne, p, hp, hc, he⟩
          · exact Or.inl h1
          · exact Or.inr ⟨dn', sel', List.mem_cons_of_mem _ hm, hne, p, hp, hc, he⟩
      | some sel =>
          by_cases he : sel.isEmpty <;> simp only [he, if_true, if_false] at h
          · rcases ih h with h1 | ⟨dn', sel', hm, hne, p, hp, hc, hx⟩
            · exact Or.inl h1
            · exact Or.inr ⟨dn', sel', List.mem_cons_of_mem _ hm, hne, p, hp, hc, hx⟩
          · rcases ih h with h1 | ⟨dn', sel', hm, hne, p, hp, hc, hx⟩
            · rcases addSched_elim h1 with h2 | ⟨p, hp, hc, hx⟩
              · exact Or.inl h2
              · exact Or.inr ⟨dn, sel, List.mem_cons_self _ _,
                  Bool.not_eq_true _ ▸ (by simpa using he), p, hp, hc, hx⟩
            · refine Or.inr ⟨dn', sel', List.mem_cons_of_mem _ hm, hne, p, ?_, hc, hx⟩
              simpa using hp

/-! Identity lemmas: a statement whose effect is already present leaves the
store unchanged. -/

theorem mergePod_eq_self {nm kd cr : String} {s : GraphState}
    (h : ∃ p ∈ s.pods, p.name = nm ∧ p.kind = kd ∧ p.created = cr) :
    mergePod nm kd cr s = s := by
  unfold mergePod; exact if_pos h

theorem mergePod_key_exists (nm kd cr : String) (s : GraphState) :
    ∃ p ∈ (mergePod nm kd cr s).pods, p.name = nm ∧ p.kind = kd ∧ p.created = cr := by
  unfold mergePod; split
  · assumption
  · exact ⟨{ name := nm, kind := kd, created := cr },
      List.mem_append_right _ (List.mem_singleton.mpr rfl), rfl, rfl, rfl⟩

theorem setIpStatus_eq_self {nm : String} {st ip : Option String} {s : GraphState}
    (h : ∀ p ∈ s.pods, p.name = nm → p.status = st ∧ p.pod_ip = ip) :
    setIpStatus nm st ip s = s := by
  unfold setIpStatus mapPods
  apply upd_pods_self
  apply mapSelf
  intro p hp
  unfold ipStatusFn
  split
  · rcases h p hp (by assumption) with ⟨h1, h2⟩
    exact Pod_eta_ipStatus h1 h2
  · rfl

theorem update_pod_label_eq_self {q : Option String} {lp : List String}
    {s : GraphState} (h : ∀ p ∈ s.pods, ipMatch q p.pod_ip = true →
      p.labels = some lp) : update_pod_label q lp s = s := by
  unfold update_pod_label mapPods
  apply upd_pods_self
  apply mapSelf
  intro p hp
  unfold labelFn
  split
  · exact Pod_eta_labels (h p hp (by assumption))
  · rfl

theorem scanDeps_eq_self {deps : List (String × Option (List String))}
    {s : GraphState}
    (h : ∀ pr ∈ deps, ∀ sel, pr.2 = some sel → sel.isEmpty = false →
      ∀ p ∈ s.pods, schedCond sel p = true → (pr.1, p.name) ∈ s.scheduledTo) :
    scanDeps deps s = s := by
  induction deps with
  | nil => rfl
  | cons pr deps ih =>
      rw [scanDeps_cons]
      have hstep : (match pr.2 with
          | some sel => if sel.isEmpty then s else addSchedEdgesFor pr.1 sel s
          | none => s) = s := by
        rcases pr with ⟨dn, osel⟩
        cases osel with
        | none => rfl
        | some sel =>
            by_cases he : sel.isEmpty
            · simp only [he, if_true]
            · simp only [he, if_false]
              exact addSchedEdgesFor_eq_self
                (h (dn, some sel) (List.mem_cons_self _ _) sel rfl
                  (by simpa using he))
      rw [hstep]
      exact ih fun pr hpr => h pr (List.mem_cons_of_mem _ hpr)

theorem add_pod_to_node_eq_self {q : Option String} {nn : String} {s : GraphState}
    (h : ∀ p ∈ s.pods, ipMatch q p.pod_ip = true → (p.name, nn) ∈ s.runsOn) :
    add_pod_to_node q nn s = s := by
  unfold add_pod_to_node; split
  · exact upd_runsOn_self (edgeFold_eq_self h)
  · rfl

theorem add_pod_to_namespace_eq_self {q : Option String} {ns : String}
    {s : GraphState}
    (h : ∀ p ∈ s.pods, ipMatch q p.pod_ip = true → (p.name, ns) ∈ s.podNamespace) :
    add_pod_to_namespace q ns s = s := by
  unfold add_pod_to_namespace; split
  · exact upd_podNamespace_self (edgeFold_eq_self h)
  · rfl

theorem add_pod_to_node_none (nn : String) (s : GraphState) :
    add_pod_to_node none nn s = s :=
  add_pod_to_node_eq_self fun p _ hc => by simp at hc

theorem add_pod_to_namespace_none (ns : String) (s : GraphState) :
    add_pod_to_namespace none ns s = s :=
  add_pod_to_namespace_eq_self fun p _ hc => by simp at hc

/-! Characterizations of the `upsert_pod` pipeline components. -/

theorem upsert_pod_unfold (props : PodProps) (labels : List (String × String))
    (nspace node_name : Option String) (s : GraphState) :
    upsert_pod props labels nspace node_name s =
      podNsStep props.pod_ip nspace
        (podNodeStep props.pod_ip node_name
          (podLabelsStep props.pod_ip labels
            (podIpStatusStep props
              (mergePod props.name props.kind props.created s)))) := rfl

theorem podLabelsStep_pods_char (q : Option String)
    (labels : List (String × String)) (s : GraphState) :
    (podLabelsStep q labels s).pods =
      if labels.isEmpty then s.pods
      else s.pods.map (labelFn q (labelProperty labels)) := by
  unfold podLabelsStep
  split
  · rfl
  · unfold deployScan update_pod_label mapPods
    simp

theorem podIpStatusStep_pods_char (props : PodProps) (s : GraphState) :
    (podIpStatusStep props s).pods =
      if truthyStr props.pod_ip && truthyStr props.status then
        s.pods.map (ipStatusFn props.name props.status props.pod_ip)
      else s.pods := by
  unfold podIpStatusStep setIpStatus mapPods
  split <;> rfl

/-! Post-state facts about `upsert_pod`: what one call guarantees about the
resulting store. -/

theorem forall_mem_map_pods {l : List Pod} {f : Pod → Pod} {Q : Pod → Prop}
    (h : ∀ p ∈ l, Q (f p)) : ∀ p ∈ l.map f, Q p := by
  intro p hp
  rcases List.mem_map.mp hp with ⟨q, hq, rfl⟩
  exact h q hq

theorem exists_key_map {l : List Pod} {f : Pod → Pod}
    (hf : ∀ p, (f p).name = p.name ∧ (f p).kind = p.kind ∧ (f p).created = p.created)
    {nm kd cr : String} (h : ∃ p ∈ l, p.name = nm ∧ p.kind = kd ∧ p.created = cr) :
    ∃ p ∈ l.map f, p.name = nm ∧ p.kind = kd ∧ p.created = cr := by
  obtain ⟨p, hp, h1, h2, h3⟩ := h
  refine ⟨f p, List.mem_map_of_mem f hp, ?_, ?_, ?_⟩
  · rw [(hf p).1, h1]
  · rw [(hf p).2.1, h2]
  · rw [(hf p).2.2, h3]

theorem upsert_pod_key_exists (props : PodProps) (labels : List (String × String))
    (nspace node_name : Option String) (s : GraphState) :
    ∃ p ∈ (upsert_pod props labels nspace node_name s).pods,
      p.name = props.name ∧ p.kind = props.kind ∧ p.created = props.created := by
  rw [upsert_pod_unfold]
  simp only [podNsStep_pods, podNodeStep_pods]
  rw [podLabelsStep_pods_char, podIpStatusStep_pods_char]
  split <;> split <;>
    first
      | exact mergePod_key_exists _ _ _ _
      | exact exists_key_map (ipStatusFn_key _ _ _) (mergePod_key_exists _ _ _ _)
      | exact exists_key_map (labelFn_key _ _) (mergePod_key_exists _ _ _ _)
      | exact exists_key_map (labelFn_key _ _)
          (exists_key_map (ipStatusFn_key _ _ _) (mergePod_key_exists _ _ _ _))

theorem upsert_pod_ipStatus_fact (props : PodProps) (labels : List (String × String))
    (nspace node_name : Option String) (s : GraphState)
    (hg : (truthyStr props.pod_ip && truthyStr props.status) = true) :
    ∀ p ∈ (upsert_pod props labels nspace node_name s).pods,
      p.name = props.name → p.status = props.status ∧ p.pod_ip = props.pod_ip := by
  rw [upsert_pod_unfold]
  simp only [podNsStep_pods, podNodeStep_pods]
  rw [podLabelsStep_pods_char, podIpStatusStep_pods_char, if_pos hg]
  have base : ∀ p ∈ (mergePod props.name props.kind props.created s).pods.map
      (ipStatusFn props.name props.status props.pod_ip),
      p.name = props.name → p.status = props.status ∧ p.pod_ip = props.pod_ip := by
    apply forall_mem_map_pods
    intro q _
    unfold ipStatusFn
    by_cases hn : q.name = props.name
    · rw [if_pos hn]; intro _; exact ⟨rfl, rfl⟩
    · rw [if_neg hn]; intro hc; exact absurd hc hn
  split
  · exact base
  · apply forall_mem_map_pods
    intro q hq
    have hk := labelFn_key props.pod_ip (labelProperty labels) q
    have hs := labelFn_status_ip props.pod_ip (labelProperty labels) q
    intro hname
    rw [hk.1] at hname
    rcases base q hq hname with ⟨h1, h2⟩
    exact ⟨hs.1.trans h1, hs.2.trans h2⟩

theorem upsert_pod_labels_fact (props : PodProps) (labels : List (String × String))
    (nspace node_name : Option String) (s : GraphState)
    (hl : labels.isEmpty = false) :
    ∀ p ∈ (upsert_pod props labels nspace node_name s).pods,
      ipMatch props.pod_ip p.pod_ip = true →
        p.labels = some (labelProperty labels) := by
  rw [upsert_pod_unfold]
  simp only [podNsStep_pods, podNodeStep_pods]
  rw [podLabelsStep_pods_char, if_neg (by simp [hl])]
  apply forall_mem_map_pods
  intro q _
  unfold labelFn
  by_cases hm : ipMatch props.pod_ip q.pod_ip = true
  · rw [if_pos hm]; intro _; rfl
  · rw [if_neg hm]; intro hc; exact absurd hc hm

theorem upsert_pod_sched_fact (props : PodProps) (labels : List (String × String))
    (nspace node_name : Option String) (s : GraphState)
    (hl : labels.isEmpty = false) :
    ∀ d ∈ s.deployments, ∀ sel, d.selector = some sel → sel.isEmpty = false →
      ∀ p ∈ (upsert_pod props labels nspace node_name s).pods,
        schedCond sel p = true →
          (d.name, p.name) ∈ (upsert_pod props labels nspace node_name s).scheduledTo := by
  intro d hd sel hsel hne p hp hc
  rw [upsert_pod_unfold] at hp ⊢
  simp only [podNsStep_pods, podNodeStep_pods] at hp
  simp only [podNsStep_scheduledTo, podNodeStep_scheduledTo]
  unfold podLabelsStep at hp ⊢
  rw [if_neg (by simp [hl])] at hp ⊢
  unfold deployScan at hp ⊢
  rw [scanDeps_pods] at hp
  have hdeps : (update_pod_label props.pod_ip (labelProperty labels)
      (podIpStatusStep props (mergePod props.name props.kind props.created s))).deployments
      = s.deployments := by
    unfold update_pod_label mapPods; simp
  have h1 : (d.name, some sel) ∈ (update_pod_label props.pod_ip (labelProperty labels)
      (podIpStatusStep props (mergePod props.name props.kind props.created s))).deployments.map
        (fun d => (d.name, d.selector)) := by
    rw [hdeps]
    rw [← hsel]
    exact List.mem_map_of_mem _ hd
  have hd' : ∃ d' ∈ (update_pod_label props.pod_ip (labelProperty labels)
      (podIpStatusStep props (mergePod props.name props.kind props.created s))).deployments,
      d'.name = d.name := by
    rw [hdeps]; exact ⟨d, hd, rfl⟩
  exact scanDeps_adds h1 hne hd' hp hc

theorem upsert_pod_runsOn_fact (props : PodProps) (labels : List (String × String))
    (nspace : Option String) (nn : String) (s : GraphState)
    (hnn : ¬ nn = "") (hnode : ∃ n ∈ s.nodes, n.name = nn) :
    ∀ p ∈ (upsert_pod props labels nspace (some nn) s).pods,
      ipMatch props.pod_ip p.pod_ip = true →
        (p.name, nn) ∈ (upsert_pod props labels nspace (some nn) s).runsOn := by
  intro p hp hm
  rw [upsert_pod_unfold] at hp ⊢
  simp only [podNsStep_pods] at hp
  simp only [podNsStep_runsOn]
  simp only [podNodeStep] at hp ⊢
  rw [if_neg hnn] at hp ⊢
  rw [add_pod_to_node_pods] at hp
  unfold add_pod_to_node
  rw [if_pos (by simpa using hnode)]
  exact mem_edgeFold_self hp hm

theorem upsert_pod_podNs_fact (props : PodProps) (labels : List (String × String))
    (ns : String) (node_name : Option String) (s : GraphState)
    (hns : ¬ ns = "") (hn : ∃ n ∈ s.namespaces, n.name = ns) :
    ∀ p ∈ (upsert_pod props labels (some ns) node_name s).pods,
      ipMatch props.pod_ip p.pod_ip = true →
        (p.name, ns) ∈ (upsert_pod props labels (some ns) node_name s).podNamespace := by
  intro p hp hm
  rw [upsert_pod_unfold] at hp ⊢
  simp only [podNsStep] at hp ⊢
  rw [if_neg hns] at hp ⊢
  rw [add_pod_to_namespace_pods] at hp
  unfold add_pod_to_namespace
  rw [if_pos (by simpa using hn)]
  exact mem_edgeFold_self hp hm

/-! Replay idempotence of the happy-path operations. -/

theorem upsert_pod_idem (props : PodProps) (labels : List (String × String))
    (nspace node_name : Option String) (s : GraphState) :
    upsert_pod props labels nspace node_name
      (upsert_pod props labels nspace node_name s) =
      upsert_pod props labels nspace node_name s := by
  set t := upsert_pod props labels nspace node_name s with ht
  have h1 : mergePod props.name props.kind props.created t = t :=
    mergePod_eq_self (upsert_pod_key_exists props labels nspace node_name s)
  have h2 : podIpStatusStep props t = t := by
    unfold podIpStatusStep
    split
    · exact setIpStatus_eq_self
        (upsert_pod_ipStatus_fact props labels nspace node_name s (by assumption))
    · rfl
  have h3 : podLabelsStep props.pod_ip labels t = t := by
    unfold podLabelsStep
    split
    · rfl
    · have hl : labels.isEmpty = false := by
        rename_i hne; simpa using hne
      have hup : update_pod_label props.pod_ip (labelProperty labels) t = t :=
        update_pod_label_eq_self (upsert_pod_labels_fact props labels nspace node_name s hl)
      rw [hup]
      unfold deployScan
      apply scanDeps_eq_self
      intro pr hpr sel hsel hne' p hp hc
      rcases List.mem_map.mp hpr with ⟨d, hd, rfl⟩
      have hd' : d ∈ s.deployments := by
        rw [ht, upsert_pod_deployments] at hd; exact hd
      have hsel' : d.selector = some sel := hsel
      exact upsert_pod_sched_fact props labels nspace node_name s hl d hd' sel
        hsel' hne' p hp hc
  have h4 : podNodeStep props.pod_ip node_name t = t := by
    rcases node_name with _ | nn
    · rfl
    · simp only [podNodeStep]
      split
      · rfl
      · rename_i hnn
        unfold add_pod_to_node
        split
        · rename_i hex
          apply upd_runsOn_self
          apply edgeFold_eq_self
          intro p hp hm
          have hex' : ∃ n ∈ s.nodes, n.name = nn := by
            rw [ht, upsert_pod_nodes] at hex; exact hex
          exact upsert_pod_runsOn_fact props labels nspace nn s hnn hex' p hp hm
        · rfl
  have h5 : podNsStep props.pod_ip nspace t = t := by
    rcases nspace with _ | ns
    · rfl
    · simp only [podNsStep]
      split
      · rfl
      · rename_i hns
        unfold add_pod_to_namespace
        split
        · rename_i hex
          apply upd_podNamespace_self
          apply edgeFold_eq_self
          intro p hp hm
          have hex' : ∃ n ∈ s.namespaces, n.name = ns := by
            rw [ht, upsert_pod_namespaces] at hex; exact hex
          exact upsert_pod_podNs_fact props labels ns node_name s hns hex' p hp hm
        · rfl
  calc upsert_pod props labels nspace node_name t
      = podNsStep props.pod_ip nspace
          (podNodeStep props.pod_ip node_name
            (podLabelsStep props.pod_ip labels
              (podIpStatusStep props
                (mergePod props.name props.kind props.created t)))) := rfl
    _ = t := by rw [h1, h2, h3, h4, h5]

theorem create_node_key_exists (props : NodeProps) (s : GraphState) :
    ∃ n ∈ (create_node props s).nodes, n.name = props.name ∧
      n.kind = props.kind ∧ n.created = props.created := by
  unfold create_node; split
  · assumption
  · exact ⟨{ name := props.name, kind := props.kind, created := props.created },
      List.mem_append_right _ (List.mem_singleton.mpr rfl), rfl, rfl, rfl⟩

theorem create_node_idem (props : NodeProps) (s : GraphState) :
    create_node props (create_node props s) = create_node props s := by
  set t := create_node props s with ht
  unfold create_node
  rw [if_pos (create_node_key_exists props s)]

theorem NamespaceEnt_eta_status {n : NamespaceEnt} {st : Option String}
    (h : n.status = st) : ({ n with status := st } : NamespaceEnt) = n := by
  cases n; cases h; rfl

theorem nsStatusFn_key (nm : String) (st : Option String) (n : NamespaceEnt) :
    (nsStatusFn nm st n).name = n.name ∧ (nsStatusFn nm st n).kind = n.kind ∧
      (nsStatusFn nm st n).created = n.created := by
  unfold nsStatusFn; split <;> exact ⟨rfl, rfl, rfl⟩

theorem exists_key_map_ns {l : List NamespaceEnt} {f : NamespaceEnt → NamespaceEnt}
    (hf : ∀ n, (f n).name = n.name ∧ (f n).kind = n.kind ∧ (f n).created = n.created)
    {nm kd cr : String} (h : ∃ n ∈ l, n.name = nm ∧ n.kind = kd ∧ n.created = cr) :
    ∃ n ∈ l.map f, n.name = nm ∧ n.kind = kd ∧ n.created = cr := by
  obtain ⟨n, hn, h1, h2, h3⟩ := h
  refine ⟨f n, List.mem_map_of_mem f hn, ?_, ?_, ?_⟩
  · rw [(hf n).1, h1]
  · rw [(hf n).2.1, h2]
  · rw [(hf n).2.2, h3]

theorem mergeNamespace_eq_self {nm kd cr : String} {s : GraphState}
    (h : ∃ n ∈ s.namespaces, n.name = nm ∧ n.kind = kd ∧ n.created = cr) :
    mergeNamespace nm kd cr s = s := by
  unfold mergeNamespace; exact if_pos h

theorem mergeNamespace_key_exists (nm kd cr : String) (s : GraphState) :
    ∃ n ∈ (mergeNamespace nm kd cr s).namespaces,
      n.name = nm ∧ n.kind = kd ∧ n.created = cr := by
  unfold mergeNamespace; split
  · assumption
  · exact ⟨{ name := nm, kind := kd, created := cr },
      List.mem_append_right _ (List.mem_singleton.mpr rfl), rfl, rfl, rfl⟩

theorem setNsStatus_eq_self {nm : String} {st : Option String} {s : GraphState}
    (h : ∀ n ∈ s.namespaces, n.name = nm → n.status = st) :
    setNsStatus nm st s = s := by
  unfold setNsStatus
  apply upd_namespaces_self
  apply mapSelf
  intro n hn
  unfold nsStatusFn
  split
  · exact NamespaceEnt_eta_status (h n hn (by assumption))
  · rfl

theorem upsert_namespace_key_exists (props : NsProps) (s : GraphState) :
    ∃ n ∈ (upsert_namespace props s).namespaces,
      n.name = props.name ∧ n.kind = props.kind ∧ n.created = props.created := by
  unfold upsert_namespace
  split
  · unfold setNsStatus
    simp only []
    exact exists_key_map_ns (nsStatusFn_key _ _)
      (mergeNamespace_key_exists props.name props.kind props.created s)
  · exact mergeNamespace_key_exists props.name props.kind props.created s

theorem upsert_namespace_status_fact (props : NsProps) (s : GraphState)
    (hg : truthyStr props.status = true) :
    ∀ n ∈ (upsert_namespace props s).namespaces,
      n.name = props.name → n.status = props.status := by
  unfold upsert_namespace
  rw [if_pos hg]
  unfold setNsStatus
  intro n hn
  simp only [] at hn
  rcases List.mem_map.mp hn with ⟨m, _, rfl⟩
  unfold nsStatusFn
  by_cases hm : m.name = props.name
  · rw [if_pos hm]; intro _; rfl
  · rw [if_neg hm]; intro hc; exact absurd hc hm

theorem upsert_namespace_idem (props : NsProps) (s : GraphState) :
    upsert_namespace props (upsert_namespace props s) = upsert_namespace props s := by
  set t := upsert_namespace props s with ht
  have h1 : mergeNamespace props.name props.kind props.created t = t :=
    mergeNamespace_eq_self (upsert_namespace_key_exists props s)
  have h2 : upsert_namespace props t = t := by
    unfold upsert_namespace
    split
    · rw [h1]
      exact setNsStatus_eq_self (upsert_namespace_status_fact props s (by assumption))
    · exact h1
  exact h2

@[simp] theorem upsert_deployment_nodes (props : DeployProps)
    (labels : List (String × String)) (nspace : Option String)
    (selector : List (String × String)) (s : GraphState) :
    (upsert_deployment props labels nspace selector s).nodes = s.nodes := by
  unfold upsert_deployment; simp

@[simp] theorem upsert_deployment_namespaces (props : DeployProps)
    (labels : List (String × String)) (nspace : Option String)
    (selector : List (String × String)) (s : GraphState) :
    (upsert_deployment props labels nspace selector s).namespaces = s.namespaces := by
  unfold upsert_deployment; simp

@[simp] theorem upsert_deployment_pods (props : DeployProps)
    (labels : List (String × String)) (nspace : Option String)
    (selector : List (String × String)) (s : GraphState) :
    (upsert_deployment props labels nspace selector s).pods = s.pods := by
  unfold upsert_deployment; simp

@[simp] theorem upsert_deployment_runsOn (props : DeployProps)
    (labels : List (String × String)) (nspace : Option String)
    (selector : List (String × String)) (s : GraphState) :
    (upsert_deployment props labels nspace selector s).runsOn = s.runsOn := by
  unfold upsert_deployment; simp

@[simp] theorem upsert_deployment_podNamespace (props : DeployProps)
    (labels : List (String × String)) (nspace : Option String)
    (selector : List (String × String)) (s : GraphState) :
    (upsert_deployment props labels nspace selector s).podNamespace = s.podNamespace := by
  unfold upsert_deployment; simp

@[simp] theorem upsert_deployment_scheduledTo (props : DeployProps)
    (labels : List (String × String)) (nspace : Option String)
    (selector : List (String × String)) (s : GraphState) :
    (upsert_deployment props labels nspace selector s).scheduledTo = s.scheduledTo := by
  unfold upsert_deployment; simp

theorem Deployment_eta_replicas {d : Deployment} {r rr : Option Int}
    (h1 : d.replicas = r) (h2 : d.ready_replicas = rr) :
    ({ d with replicas := r, ready_replicas := rr } : Deployment) = d := by
  cases d; cases h1; cases h2; rfl

theorem Deployment_eta_labels {d : Deployment} {olp : Option (List String)}
    (h : d.labels = olp) : ({ d with labels := olp } : Deployment) = d := by
  cases d; cases h; rfl

theorem Deployment_eta_selector {d : Deployment} {osp : Option (List String)}
    (h : d.selector = osp) : ({ d with selector := osp } : Deployment) = d := by
  cases d; cases h; rfl

theorem forall_mem_map_deps {l : List Deployment} {f : Deployment → Deployment}
    {Q : Deployment → Prop} (h : ∀ d ∈ l, Q (f d)) : ∀ d ∈ l.map f, Q d := by
  intro d hd
  rcases List.mem_map.mp hd with ⟨e, he, rfl⟩
  exact h e he

theorem exists_key_map_dep {l : List Deployment} {f : Deployment → Deployment}
    (hf : ∀ d, (f d).name = d.name ∧ (f d).kind = d.kind ∧ (f d).created = d.created)
    {nm kd cr : String} (h : ∃ d ∈ l, d.name = nm ∧ d.kind = kd ∧ d.created = cr) :
    ∃ d ∈ l.map f, d.name = nm ∧ d.kind = kd ∧ d.created = cr := by
  obtain ⟨d, hd, h1, h2, h3⟩ := h
  refine ⟨f d, List.mem_map_of_mem f hd, ?_, ?_, ?_⟩
  · rw [(hf d).1, h1]
  · rw [(hf d).2.1, h2]
  · rw [(hf d).2.2, h3]

theorem replicasFn_key (nm : String) (r rr : Option Int) (d : Deployment) :
    (replicasFn nm r rr d).name = d.name ∧ (replicasFn nm r rr d).kind = d.kind ∧
      (replicasFn nm r rr d).created = d.created := by
  unfold replicasFn; split <;> exact ⟨rfl, rfl, rfl⟩

theorem depLabelsFn_pres (nm : String) (lp : List String) (d : Deployment) :
    (depLabelsFn nm lp d).name = d.name ∧ (depLabelsFn nm lp d).kind = d.kind ∧
      (depLabelsFn nm lp d).created = d.created ∧
      (depLabelsFn nm lp d).replicas = d.replicas ∧
      (depLabelsFn nm lp d).ready_replicas = d.ready_replicas ∧
      (depLabelsFn nm lp d).selector = d.selector := by
  unfold depLabelsFn; split <;> exact ⟨rfl, rfl, rfl, rfl, rfl, rfl⟩

theorem depSelectorFn_pres (nm : String) (sp : List String) (d : Deployment) :
    (depSelectorFn nm sp d).name = d.name ∧ (depSelectorFn nm sp d).kind = d.kind ∧
      (depSelectorFn nm sp d).created = d.created ∧
      (depSelectorFn nm sp d).replicas = d.replicas ∧
      (depSelectorFn nm sp d).ready_replicas = d.ready_replicas ∧
      (depSelectorFn nm sp d).labels = d.labels := by
  unfold depSelectorFn; split <;> exact ⟨rfl, rfl, rfl, rfl, rfl, rfl⟩

theorem mergeDeployment_eq_self {nm kd cr : String} {s : GraphState}
    (h : ∃ d ∈ s.deployments, d.name = nm ∧ d.kind = kd ∧ d.created = cr) :
    mergeDeployment nm kd cr s = s := by
  unfold mergeDeployment; exact if_pos h

theorem mergeDeployment_key_exists (nm kd cr : String) (s : GraphState) :
    ∃ d ∈ (mergeDeployment nm kd cr s).deployments,
      d.name = nm ∧ d.kind = kd ∧ d.created = cr := by
  unfold mergeDeployment; split
  · assumption
  · exact ⟨{ name := nm, kind := kd, created := cr },
      List.mem_append_right _ (List.mem_singleton.mpr rfl), rfl, rfl, rfl⟩

theorem setReplicas_eq_self {nm : String} {r rr : Option Int} {s : GraphState}
    (h : ∀ d ∈ s.deployments, d.name = nm → d.replicas = r ∧ d.ready_replicas = rr) :
    setReplicas nm r rr s = s := by
  unfold setReplicas mapDeps
  apply upd_deployments_self
  apply mapSelf
  intro d hd
  unfold replicasFn
  split
  · rcases h d hd (by assumption) with ⟨h1, h2⟩
    exact Deployment_eta_replicas h1 h2
  · rfl

theorem setDepLabels_eq_self {nm : String} {lp : List String} {s : GraphState}
    (h : ∀ d ∈ s.deployments, d.name = nm → d.labels = some lp) :
    setDepLabels nm lp s = s := by
  unfold setDepLabels mapDeps
  apply upd_deployments_self
  apply mapSelf
  intro d hd
  unfold depLabelsFn
  split
  · exact Deployment_eta_labels (h d hd (by assumption))
  · rfl

theorem setDepSelector_eq_self {nm : String} {sp : List String} {s : GraphState}
    (h : ∀ d ∈ s.deployments, d.name = nm → d.selector = some sp) :
    setDepSelector nm sp s = s := by
  unfold setDepSelector mapDeps
  apply upd_deployments_self
  apply mapSelf
  intro d hd
  unfold depSelectorFn
  split
  · exact Deployment_eta_selector (h d hd (by assumption))
  · rfl

theorem depReplicasStep_deps_char (props : DeployProps) (s : GraphState) :
    (depReplicasStep props s).deployments =
      if truthyInt props.ready_replicas && truthyInt props.replicas then
        s.deployments.map (replicasFn props.name props.replicas props.ready_replicas)
      else s.deployments := by
  unfold depReplicasStep setReplicas mapDeps
  split <;> rfl

theorem depLabelsStep_deps_char (nm : String) (labels : List (String × String))
    (s : GraphState) :
    (depLabelsStep nm labels s).deployments =
      if labels.isEmpty then s.deployments
      else s.deployments.map (depLabelsFn nm (labelProperty labels)) := by
  unfold depLabelsStep setDepLabels mapDeps
  split <;> rfl

theorem depSelectorStep_deps_char (nm : String) (selector : List (String × String))
    (s : GraphState) :
    (depSelectorStep nm selector s).deployments =
      if selector.isEmpty then s.deployments
      else s.deployments.map (depSelectorFn nm (labelProperty selector)) := by
  unfold depSelectorStep setDepSelector mapDeps
  split <;> rfl

theorem upsert_deployment_deps_char (props : DeployProps)
    (labels : List (String × String)) (nspace : Option String)
    (selector : List (String × String)) (s : GraphState) :
    (upsert_deployment props labels nspace selector s).deployments =
      (depSelectorStep props.name selector
        (depLabelsStep props.name labels
          (depReplicasStep props
            (mergeDeployment props.name props.kind props.created s)))).deployments := by
  unfold upsert_deployment
  rw [depSelectorStep_deps_char, depSelectorStep_deps_char, depNsStep_deployments]

theorem upsert_deployment_key_exists (props : DeployProps)
    (labels : List (String × String)) (nspace : Option String)
    (selector : List (String × String)) (s : GraphState) :
    ∃ d ∈ (upsert_deployment props labels nspace selector s).deployments,
      d.name = props.name ∧ d.kind = props.kind ∧ d.created = props.created := by
  rw [upsert_deployment_deps_char, depSelectorStep_deps_char,
    depLabelsStep_deps_char, depReplicasStep_deps_char]
  have base := mergeDeployment_key_exists props.name props.kind props.created s
  have klab : ∀ d : Deployment,
      (depLabelsFn props.name (labelProperty labels) d).name = d.name ∧
      (depLabelsFn props.name (labelProperty labels) d).kind = d.kind ∧
      (depLabelsFn props.name (labelProperty labels) d).created = d.created :=
    fun d => ⟨(depLabelsFn_pres _ _ d).1, (depLabelsFn_pres _ _ d).2.1,
      (depLabelsFn_pres _ _ d).2.2.1⟩
  have ksel : ∀ d : Deployment,
      (depSelectorFn props.name (labelProperty selector) d).name = d.name ∧
      (depSelectorFn props.name (labelProperty selector) d).kind = d.kind ∧
      (depSelectorFn props.name (labelProperty selector) d).created = d.created :=
    fun d => ⟨(depSelectorFn_pres _ _ d).1, (depSelectorFn_pres _ _ d).2.1,
      (depSelectorFn_pres _ _ d).2.2.1⟩
  split
  · split
    · split
      · exact exists_key_map_dep (replicasFn_key _ _ _) base
      · exact base
    · split
      · exact exists_key_map_dep klab (exists_key_map_dep (replicasFn_key _ _ _) base)
      · exact exists_key_map_dep klab base
  · split
    · split
      · exact exists_key_map_dep ksel (exists_key_map_dep (replicasFn_key _ _ _) base)
      · exact exists_key_map_dep ksel base
    · split
      · exact exists_key_map_dep ksel
          (exists_key_map_dep klab (exists_key_map_dep (replicasFn_key _ _ _) base))
      · exact exists_key_map_dep ksel (exists_key_map_dep klab base)

theorem upsert_deployment_replicas_fact (props : DeployProps)
    (labels : List (String × String)) (nspace : Option String)
    (selector : List (String × String)) (s : GraphState)
    (hg : (truthyInt props.ready_replicas && truthyInt props.replicas) = true) :
    ∀ d ∈ (upsert_deployment props labels nspace selector s).deployments,
      d.name = props.name → d.replicas = props.replicas ∧
        d.ready_replicas = props.ready_replicas := by
  rw [upsert_deployment_deps_char, depSelectorStep_deps_char,
    depLabelsStep_deps_char, depReplicasStep_deps_char]
  simp only [if_pos hg]
  have base : ∀ d ∈ (mergeDeployment props.name props.kind
      props.created s).deployments.map
      (replicasFn props.name props.replicas props.ready_replicas),
      d.name = props.name → d.replicas = props.replicas ∧
        d.ready_replicas = props.ready_replicas := by
    apply forall_mem_map_deps
    intro d _
    unfold replicasFn
    by_cases hn : d.name = props.name
    · rw [if_pos hn]; intro _; exact ⟨rfl, rfl⟩
    · rw [if_neg hn]; intro hc; exact absurd hc hn
  have tlab : ∀ l : List Deployment,
      (∀ d ∈ l, d.name = props.name → d.replicas = props.replicas ∧
        d.ready_replicas = props.ready_replicas) →
      ∀ d ∈ l.map (depLabelsFn props.name (labelProperty labels)),
        d.name = props.name → d.replicas = props.replicas ∧
          d.ready_replicas = props.ready_replicas := by
    intro l hl
    apply forall_mem_map_deps
    intro d hd hn
    have hp := depLabelsFn_pres props.name (labelProperty labels) d
    rw [hp.1] at hn
    rcases hl d hd hn with ⟨h1, h2⟩
    exact ⟨hp.2.2.2.1.trans h1, hp.2.2.2.2.1.trans h2⟩
  have tsel : ∀ l : List Deployment,
      (∀ d ∈ l, d.name = props.name → d.replicas = props.replicas ∧
        d.ready_replicas = props.ready_replicas) →
      ∀ d ∈ l.map (depSelectorFn props.name (labelProperty selector)),
        d.name = props.name → d.replicas = props.replicas ∧
          d.ready_replicas = props.ready_replicas := by
    intro l hl
    apply forall_mem_map_deps
    intro d hd hn
    have hp := depSelectorFn_pres props.name (labelProperty selector) d
    rw [hp.1] at hn
    rcases hl d hd hn with ⟨h1, h2⟩
    exact ⟨hp.2.2.2.1.trans h1, hp.2.2.2.2.1.trans h2⟩
  split
  · split
    · exact base
    · exact tlab _ base
  · split
    · exact tsel _ base
    · exact tsel _ (tlab _ base)

theorem upsert_deployment_labels_fact (props : DeployProps)
    (labels : List (String × String)) (nspace : Option String)
    (selector : List (String × String)) (s : GraphState)
    (hl : labels.isEmpty = false) :
    ∀ d ∈ (upsert_deployment props labels nspace selector s).deployments,
      d.name = props.name → d.labels = some (labelProperty labels) := by
  have hl' : ¬ labels.isEmpty = true := by simp [hl]
  rw [upsert_deployment_deps_char, depSelectorStep_deps_char,
    depLabelsStep_deps_char]
  simp only [if_neg hl']
  have base : ∀ l : List Deployment,
      ∀ d ∈ l.map (depLabelsFn props.name (labelProperty labels)),
        d.name = props.name → d.labels = some (labelProperty labels) := by
    intro l
    apply forall_mem_map_deps
    intro d _
    unfold depLabelsFn
    by_cases hn : d.name = props.name
    · rw [if_pos hn]; intro _; rfl
    · rw [if_neg hn]; intro hc; exact absurd hc hn
  split
  · exact base _
  · apply forall_mem_map_deps
    intro d hd hn
    have hp := depSelectorFn_pres props.name (labelProperty selector) d
    rw [hp.1] at hn
    exact hp.2.2.2.2.2.trans (base _ d hd hn)

theorem upsert_deployment_selector_fact (props : DeployProps)
    (labels : List (String × String)) (nspace : Option String)
    (selector : List (String × String)) (s : GraphState)
    (hs : selector.isEmpty = false) :
    ∀ d ∈ (upsert_deployment props labels nspace selector s).deployments,
      d.name = props.name → d.selector = some (labelProperty selector) := by
  have hs' : ¬ selector.isEmpty = true := by simp [hs]
  rw [upsert_deployment_deps_char, depSelectorStep_deps_char, if_neg hs']
  apply forall_mem_map_deps
  intro d _
  unfold depSelectorFn
  by_cases hn : d.name = props.name
  · rw [if_pos hn]; intro _; rfl
  · rw [if_neg hn]; intro hc; exact absurd hc hn

theorem upsert_stage3_name_exists (props : DeployProps)
    (labels : List (String × String)) (s : GraphState) :
    ∃ d ∈ (depLabelsStep props.name labels
      (depReplicasStep props
        (mergeDeployment props.name props.kind props.created s))).deployments,
      d.name = props.name := by
  rw [depLabelsStep_deps_char, depReplicasStep_deps_char]
  have base := mergeDeployment_key_exists props.name props.kind props.created s
  obtain ⟨d, hd, h1, _, _⟩ := base
  split
  · split
    · exact ⟨replicasFn props.name props.replicas props.ready_replicas d,
        List.mem_map_of_mem _ hd, by rw [(replicasFn_key _ _ _ d).1, h1]⟩
    · exact ⟨d, hd, h1⟩
  · split
    · exact ⟨depLabelsFn props.name (labelProperty labels)
        (replicasFn props.name props.replicas props.ready_replicas d),
        List.mem_map_of_mem _ (List.mem_map_of_mem _ hd),
        by rw [(depLabelsFn_pres _ _ _).1, (replicasFn_key _ _ _ d).1, h1]⟩
    · exact ⟨depLabelsFn props.name (labelProperty labels) d,
        List.mem_map_of_mem _ hd, by rw [(depLabelsFn_pres _ _ _).1, h1]⟩

theorem upsert_deployment_depNs_fact (props : DeployProps)
    (labels : List (String × String)) (selector : List (String × String))
    (s : GraphState) (ns : String) (hne : ¬ ns = "")
    (hn : ∃ n ∈ s.namespaces, n.name = ns) :
    (props.name, ns) ∈
      (upsert_deployment props labels (some ns) selector s).depNamespace := by
  unfold upsert_deployment
  simp only [depSelectorStep_depNamespace, depNsStep]
  rw [if_neg hne]
  unfold addDepToNamespace
  rw [if_pos ⟨upsert_stage3_name_exists props labels s, by simpa using hn⟩]
  exact mem_insertEdge_self _ _

theorem upsert_deployment_idem (props : DeployProps)
    (labels : List (String × String)) (nspace : Option String)
    (selector : List (String × String)) (s : GraphState) :
    upsert_deployment props labels nspace selector
      (upsert_deployment props labels nspace selector s) =
      upsert_deployment props labels nspace selector s := by
  set t := upsert_deployment props labels nspace selector s with ht
  have h1 : mergeDeployment props.name props.kind props.created t = t :=
    mergeDeployment_eq_self (upsert_deployment_key_exists props labels nspace selector s)
  have h2 : depReplicasStep props t = t := by
    unfold depReplicasStep
    split
    · exact setReplicas_eq_self
        (upsert_deployment_replicas_fact props labels nspace selector s (by assumption))
    · rfl
  have h3 : depLabelsStep props.name labels t = t := by
    unfold depLabelsStep
    split
    · rfl
    · have hl : labels.isEmpty = false := by rename_i hne; simpa using hne
      exact setDepLabels_eq_self
        (upsert_deployment_labels_fact props labels nspace selector s hl)
  have h4 : depNsStep props.name nspace t = t := by
    rcases nspace with _ | ns
    · rfl
    · simp only [depNsStep]
      split
      · rfl
      · rename_i hns
        unfold addDepToNamespace
        split
        · rename_i hex
          apply upd_depNamespace_self
          apply insertEdge_eq_of_mem
          have hn : ∃ n ∈ s.namespaces, n.name = ns := by
            have := hex.2
            rw [ht, upsert_deployment_namespaces] at this
            exact this
          exact upsert_deployment_depNs_fact props labels selector s ns hns hn
        · rfl
  have h5 : depSelectorStep props.name selector t = t := by
    unfold depSelectorStep
    split
    · rfl
    · have hs : selector.isEmpty = false := by rename_i hne; simpa using hne
      exact setDepSelector_eq_self
        (upsert_deployment_selector_fact props labels nspace selector s hs)
  calc upsert_deployment props labels nspace selector t
      = depSelectorStep props.name selector
          (depNsStep props.name nspace
            (depLabelsStep props.name labels
              (depReplicasStep props
                (mergeDeployment props.name props.kind props.created t)))) := rfl
    _ = t := by rw [h1, h2, h3, h4, h5]

/-!
Claim theorems.
-/

/-- C3: the claim says a normalization failure (required field absent) makes
the Watch Dispatcher log and skip only that event and continue the loop.
The code has no per-event handler: this theorem evaluates the pod watch loop
on a stream whose first event lacks `creation_timestamp` followed by a valid
event for pod `p2`, and shows the loop aborts (flag `false`) with the store
untouched — `p2` is never created — while the valid event alone is
processed fine. -/
theorem watch_pod_aborts_on_norm_error_C3 :
    watch_pod_loop [badEvt, goodEvt] emptyStore = (emptyStore, false)
    ∧ (watch_pod_loop [goodEvt] emptyStore).2 = true
    ∧ (∃ p ∈ (watch_pod_loop [goodEvt] emptyStore).1.pods, p.name = "p2")
    ∧ ∀ p ∈ (watch_pod_loop [badEvt, goodEvt] emptyStore).1.pods, p.name ≠ "p2" := by
  refine ⟨by decide, by decide, by decide, by decide⟩

/-- C4 counterexample: the claim says every public operation returns failure
for every store error; but `create_node` catches only `ServiceUnavailable`
(neoclient.py 29), so any other store exception propagates out of the
operation instead of returning `False`. -/
theorem create_node_propagates_other_errors_C4_cex :
    create_nodeE (some StoreErr.otherErr)
      { name := "n1", kind := "Node", created := "t0" } emptyStore =
      Except.error StoreErr.otherErr := rfl

/-- C4 (amended): `upsert_pod`, `remove_pod`, `upsert_deployment` and
`remove_deployment` catch every exception and return failure;
`create_node` and `upsert_namespace` return failure only for
`ServiceUnavailable` and propagate any other store error across the
Dispatcher boundary; fault-free runs return success. -/
theorem store_error_policy_C4 (e : StoreErr) (nprops : NodeProps)
    (sprops : NsProps) (pprops : PodProps) (dprops : DeployProps)
    (plabels dlabels dsel : List (String × String))
    (nspace node_name : Option String) (nm : String) (s : GraphState) :
    upsert_podE (some e) pprops plabels nspace node_name s = .ok (false, s)
    ∧ remove_podE (some e) nm s = .ok (false, s)
    ∧ upsert_deploymentE (some e) dprops dlabels nspace dsel s = .ok (false, s)
    ∧ remove_deploymentE (some e) nm s = .ok (false, s)
    ∧ create_nodeE (some StoreErr.serviceUnavailable) nprops s = .ok (false, s)
    ∧ upsert_namespaceE (some StoreErr.serviceUnavailable) sprops s = .ok (false, s)
    ∧ create_nodeE (some StoreErr.otherErr) nprops s = .error StoreErr.otherErr
    ∧ upsert_namespaceE (some StoreErr.otherErr) sprops s = .error StoreErr.otherErr
    ∧ create_nodeE none nprops s = .ok (true, create_node nprops s) :=
  ⟨rfl, rfl, rfl, rfl, rfl, rfl, rfl, rfl, rfl⟩

/-- C5: the claim says that whenever both `replicas` and `ready_replicas` are
present in the props the stored deployment carries the supplied values, with
zero a valid present value.  `watch_deployment` normalizes an absent ready
count to `0` (so both keys are always present), but the guard
`if props['ready_replicas'] and props['replicas']` is a truthiness test:
with `ready_replicas = 0` the `SET` is skipped and neither value is stored. -/
theorem upsert_deployment_zero_ready_skips_set_C5 :
    zeroReadyProps.replicas = some 3 ∧ zeroReadyProps.ready_replicas = some 0
    ∧ ∀ d ∈ (upsert_deployment zeroReadyProps [] none [] emptyStore).deployments,
        d.name = "d2" ∧ d.replicas = none ∧ d.ready_replicas = none := by
  refine ⟨rfl, rfl, by decide⟩

/-- C6: applying the same ADDED event twice leaves the graph exactly as
applying it once, for every resource kind: each watch handler calls one of
the four upsert/create operations with arguments determined by the event,
and each operation is idempotent on every store state (entity `MERGE`s and
edge `MERGE`s are create-if-absent, property `SET`s overwrite with the same
values). -/
theorem added_replay_idempotent_C6 (nprops : NodeProps) (sprops : NsProps)
    (pprops : PodProps) (plabels : List (String × String))
    (pns pnode : Option String) (dprops : DeployProps)
    (dlabels : List (String × String)) (dns : Option String)
    (dsel : List (String × String)) (s : GraphState) :
    create_node nprops (create_node nprops s) = create_node nprops s
    ∧ upsert_namespace sprops (upsert_namespace sprops s) = upsert_namespace sprops s
    ∧ upsert_pod pprops plabels pns pnode (upsert_pod pprops plabels pns pnode s) =
        upsert_pod pprops plabels pns pnode s
    ∧ upsert_deployment dprops dlabels dns dsel
        (upsert_deployment dprops dlabels dns dsel s) =
        upsert_deployment dprops dlabels dns dsel s :=
  ⟨create_node_idem nprops s, upsert_namespace_idem sprops s,
    upsert_pod_idem pprops plabels pns pnode s,
    upsert_deployment_idem dprops dlabels dns dsel s⟩

/-- C8: `remove_pod(name)` detach-deletes the pod: afterwards no pod with
that name remains, no edge referencing that pod (`scheduledTo` target,
`runsOn` source, `associateTo` source) remains, every pod and pod-edge not
incident to that name survives, and the other entity kinds and the
deployment-namespace edges are untouched. -/
theorem remove_pod_detach_delete_C8 (nm : String) (s : GraphState) :
    (∀ p ∈ (remove_pod nm s).pods, p.name ≠ nm)
    ∧ (∀ e ∈ (remove_pod nm s).scheduledTo, e.2 ≠ nm)
    ∧ (∀ e ∈ (remove_pod nm s).runsOn, e.1 ≠ nm)
    ∧ (∀ e ∈ (remove_pod nm s).podNamespace, e.1 ≠ nm)
    ∧ (∀ p ∈ s.pods, p.name ≠ nm → p ∈ (remove_pod nm s).pods)
    ∧ (∀ e ∈ s.scheduledTo, e.2 ≠ nm → e ∈ (remove_pod nm s).scheduledTo)
    ∧ (∀ e ∈ s.runsOn, e.1 ≠ nm → e ∈ (remove_pod nm s).runsOn)
    ∧ (∀ e ∈ s.podNamespace, e.1 ≠ nm → e ∈ (remove_pod nm s).podNamespace)
    ∧ (remove_pod nm s).nodes = s.nodes
    ∧ (remove_pod nm s).namespaces = s.namespaces
    ∧ (remove_pod nm s).deployments = s.deployments
    ∧ (remove_pod nm s).depNamespace = s.depNamespace := by
  unfold remove_pod
  refine ⟨?_, ?_, ?_, ?_, ?_, ?_, ?_, ?_, rfl, rfl, rfl, rfl⟩ <;>
    simp [List.mem_filter] <;> tauto

/-- C8 witness: removing a name not present keeps an unrelated pod. -/
theorem remove_pod_detach_delete_C8_witness :
    storedP1 ∈ (remove_pod "zz" stateC).pods :=
  (remove_pod_detach_delete_C8 "zz" stateC).2.2.2.2.1 storedP1 (by decide) (by decide)

/-- C9: `upsert_deployment` never creates or removes a `scheduledTo` edge —
the stored pods, `runsOn` and pod-`associateTo` edges are also untouched —
and the only edge it may add is the deployment's `associateTo` edge to the
supplied namespace. -/
theorem upsert_deployment_frame_C9 (props : DeployProps)
    (labels : List (String × String)) (nspace : Option String)
    (selector : List (String × String)) (s : GraphState) :
    (upsert_deployment props labels nspace selector s).scheduledTo = s.scheduledTo
    ∧ (upsert_deployment props labels nspace selector s).runsOn = s.runsOn
    ∧ (upsert_deployment props labels nspace selector s).podNamespace = s.podNamespace
    ∧ (upsert_deployment props labels nspace selector s).pods = s.pods
    ∧ ∀ e ∈ (upsert_deployment props labels nspace selector s).depNamespace,
        e ∈ s.depNamespace ∨ (e.1 = props.name ∧ nspace = some e.2) := by
  refine ⟨upsert_deployment_scheduledTo props labels nspace selector s,
    upsert_deployment_runsOn props labels nspace selector s,
    upsert_deployment_podNamespace props labels nspace selector s,
    upsert_deployment_pods props labels nspace selector s, ?_⟩
  intro e he
  have hch : (upsert_deployment props labels nspace selector s).depNamespace =
      (depNsStep props.name nspace
        (depLabelsStep props.name labels
          (depReplicasStep props
            (mergeDeployment props.name props.kind props.created s)))).depNamespace := by
    unfold upsert_deployment; simp
  rw [hch] at he
  have hbase : (depLabelsStep props.name labels
      (depReplicasStep props
        (mergeDeployment props.name props.kind props.created s))).depNamespace =
      s.depNamespace := by simp
  rcases nspace with _ | ns
  · rw [show (depNsStep props.name none
        (depLabelsStep props.name labels
          (depReplicasStep props
            (mergeDeployment props.name props.kind props.created s)))) =
        (depLabelsStep props.name labels
          (depReplicasStep props
            (mergeDeployment props.name props.kind props.created s))) from rfl,
      hbase] at he
    exact Or.inl he
  · simp only [depNsStep] at he
    by_cases hns : ns = ""
    · rw [if_pos hns, hbase] at he
      exact Or.inl he
    · rw [if_neg hns] at he
      unfold addDepToNamespace at he
      split at he
      · rw [show ({ (depLabelsStep props.name labels
            (depReplicasStep props
              (mergeDeployment props.name props.kind props.created s))) with
            depNamespace := insertEdge (props.name, ns)
              (depLabelsStep props.name labels
                (depReplicasStep props
                  (mergeDeployment props.name props.kind props.created s))).depNamespace } :
            GraphState).depNamespace =
            insertEdge (props.name, ns)
              (depLabelsStep props.name labels
                (depReplicasStep props
                  (mergeDeployment props.name props.kind props.created s))).depNamespace
            from rfl, hbase] at he
        rcases mem_of_mem_insertEdge he with h1 | h2
        · subst h1; exact Or.inr ⟨rfl, rfl⟩
        · exact Or.inl h2
      · rw [hbase] at he
        exact Or.inl he

/-- C9 witness: upserting a deployment with a namespace hint leaves the
scheduledTo edges unchanged, and its new edge is the associateTo edge to
the supplied namespace. -/
theorem upsert_deployment_frame_C9_witness :
    (upsert_deployment depProps9 [] (some "ns1") [] nsState).scheduledTo =
      nsState.scheduledTo
    ∧ (("d9", "ns1") ∈ nsState.depNamespace ∨
        (("d9", "ns1").1 = depProps9.name ∧
          (some "ns1" : Option String) = some ("d9", "ns1").2)) := by
  have h := upsert_deployment_frame_C9 depProps9 [] (some "ns1") [] nsState
  exact ⟨h.1, h.2.2.2.2 ("d9", "ns1") (by decide)⟩

theorem podNodeStep_none_q (onn : Option String) (s : GraphState) :
    podNodeStep none onn s = s := by
  rcases onn with _ | nn
  · rfl
  · simp only [podNodeStep]
    split
    · rfl
    · exact add_pod_to_node_none nn s

theorem podNsStep_none_q (ons : Option String) (s : GraphState) :
    podNsStep none ons s = s := by
  rcases ons with _ | ns
  · rfl
  · simp only [podNsStep]
    split
    · rfl
    · exact add_pod_to_namespace_none ns s

/-- C1: on every pod upsert carrying a non-empty label set (with the pod's
IP and status known, so the wholesale label replacement keyed by `pod_ip`
reaches this pod), every deployment already stored whose selector is
non-empty and a subset of the pod's current labels gets a `scheduledTo` edge
to this pod; and the out-of-order scenario holds: upserting the pod first
yields no edge, upserting the deployment still yields no edge, re-upserting
the same pod yields the edge. -/
theorem upsert_pod_deployment_matching_C1 (props : PodProps)
    (labels : List (String × String)) (nspace node_name : Option String)
    (s : GraphState) (hip : truthyStr props.pod_ip = true)
    (hst : truthyStr props.status = true) (hl : labels ≠ []) :
    (∀ d ∈ s.deployments, ∀ sel, d.selector = some sel → sel ≠ [] →
      matchesSel (labelProperty labels) sel = true →
      (d.name, props.name) ∈ (upsert_pod props labels nspace node_name s).scheduledTo)
    ∧ stateA.scheduledTo = [] ∧ stateB.scheduledTo = []
    ∧ ("d1", "p1") ∈ stateC.scheduledTo := by
  refine ⟨?_, by decide, by decide, by decide⟩
  intro d hd sel hsel hne hmatch
  have hl' : labels.isEmpty = false := by
    cases labels with
    | nil => exact absurd rfl hl
    | cons a l => rfl
  have hne' : sel.isEmpty = false := by
    cases sel with
    | nil => exact absurd rfl hne
    | cons a l => rfl
  have hg : (truthyStr props.pod_ip && truthyStr props.status) = true := by
    rw [hip, hst]; rfl
  obtain ⟨p, hp, hpn, _, _⟩ := upsert_pod_key_exists props labels nspace node_name s
  have hps := upsert_pod_ipStatus_fact props labels nspace node_name s hg p hp hpn
  obtain ⟨v, hv⟩ : ∃ v, props.pod_ip = some v := by
    cases hpp : props.pod_ip with
    | none => rw [hpp] at hip; exact absurd hip (by simp [truthyStr])
    | some v => exact ⟨v, rfl⟩
  have hipm : ipMatch props.pod_ip p.pod_ip = true := by
    rw [hv, hps.2, hv]; simp [ipMatch]
  have hlab := upsert_pod_labels_fact props labels nspace node_name s hl' p hp hipm
  have hc : schedCond sel p = true := by
    unfold schedCond; rw [hlab]; exact hmatch
  have hres := upsert_pod_sched_fact props labels nspace node_name s hl' d hd sel
    hsel hne' p hp hc
  rw [hpn] at hres
  exact hres

/-- C1 witness: applying the matching theorem at the out-of-order scenario
state, whose one stored deployment has selector `{"app=x"}`. -/
theorem upsert_pod_deployment_matching_C1_witness :
    ("d1", "p1") ∈
      (upsert_pod podPropsX podLabelsX (some "default") none stateB).scheduledTo := by
  have h := upsert_pod_deployment_matching_C1 podPropsX podLabelsX (some "default")
    none stateB (by decide) (by decide) (by decide)
  exact h.1 storedD1 (by decide) ["app=x"] (by decide) (by decide) (by decide)

/-- C10: the edge-creation query of the deployment-matching loop joins pods
only through the label-containment condition: during any pod upsert with a
non-empty label set, every stored deployment with a non-empty selector gets
a `scheduledTo` edge to every stored pod whose labels contain that selector
— here even a pod whose name differs from the upserted pod's and whose IP
does not match the upserted pod's IP. -/
theorem upsert_pod_scan_matches_all_pods_C10 (props : PodProps)
    (labels : List (String × String)) (nspace node_name : Option String)
    (s : GraphState) (hl : labels ≠ [])
    (d : Deployment) (hd : d ∈ s.deployments) (sel : List String)
    (hsel : d.selector = some sel) (hne : sel ≠ [])
    (p : Pod) (hp : p ∈ s.pods) (hpn : p.name ≠ props.name)
    (hpi : ipMatch props.pod_ip p.pod_ip = false)
    (hc : schedCond sel p = true) :
    (d.name, p.name) ∈ (upsert_pod props labels nspace node_name s).scheduledTo := by
  have hl' : labels.isEmpty = false := by
    cases labels with
    | nil => exact absurd rfl hl
    | cons a l => rfl
  have hne' : sel.isEmpty = false := by
    cases sel with
    | nil => exact absurd rfl hne
    | cons a l => rfl
  have e1 : ipStatusFn props.name props.status props.pod_ip p = p := by
    unfold ipStatusFn; rw [if_neg hpn]
  have e2 : labelFn props.pod_ip (labelProperty labels) p = p := by
    unfold labelFn; rw [if_neg (by simp [hpi])]
  have hpM : p ∈ (mergePod props.name props.kind props.created s).pods := by
    unfold mergePod; split
    · exact hp
    · exact List.mem_append_left _ hp
  have hpT : p ∈ (upsert_pod props labels nspace node_name s).pods := by
    rw [upsert_pod_unfold]
    simp only [podNsStep_pods, podNodeStep_pods]
    rw [podLabelsStep_pods_char, if_neg (by simp [hl']), podIpStatusStep_pods_char]
    split
    · have hmm := List.mem_map_of_mem (labelFn props.pod_ip (labelProperty labels))
        (List.mem_map_of_mem (ipStatusFn props.name props.status props.pod_ip) hpM)
      rw [e1, e2] at hmm
      exact hmm
    · have hmm := List.mem_map_of_mem (labelFn props.pod_ip (labelProperty labels)) hpM
      rw [e2] at hmm
      exact hmm
  exact upsert_pod_sched_fact props labels nspace node_name s hl' d hd sel hsel
    hne' p hpT hc

/-- C10 witness: upserting the unrelated IP-less pod `b` creates the edge
from deployment `d1` to the already-matching stored pod `p1`. -/
theorem upsert_pod_scan_matches_all_pods_C10_witness :
    ("d1", "p1") ∈
      (upsert_pod podPropsB [("b", "2")] none none stateB).scheduledTo :=
  upsert_pod_scan_matches_all_pods_C10 podPropsB [("b", "2")] none none stateB
    (by decide) storedD1 (by decide) ["app=x"] (by decide) (by decide) storedP1
    (by decide) (by decide) (by decide) (by decide)

/-- C7 counterexample: the claim says upserting a Pod with no `pod_ip`
establishes no scheduledTo edge because all edge joins are keyed by
`pod_ip`; but the deployment-matching query joins pods by labels only, so
upserting the IP-less pod `b` creates the scheduledTo edge from `d1` to the
already-matching pod `p1` (an edge that did not exist before the call). -/
theorem upsert_pod_no_ip_creates_edge_C7_cex :
    podPropsB.pod_ip = none ∧ stateB.scheduledTo = []
    ∧ ("d1", "p1") ∈ (upsert_pod podPropsB [("b", "2")] none none stateB).scheduledTo := by
  refine ⟨rfl, by decide, by decide⟩

/-- C7 (amended): upserting a Pod not previously stored and carrying no
`pod_ip` creates the Pod entity but establishes no `runsOn` or `associateTo`
edge (those joins are keyed by the null `pod_ip` and match nothing) and no
`scheduledTo` edge to the upserted pod itself (its labels are never stored,
so it satisfies no selector condition) — though the deployment scan may
still create `scheduledTo` edges to other stored pods whose labels already
match; a later upsert of the same pod with `pod_ip` set establishes its
edges, as the concrete two-step scenario shows. -/
theorem upsert_pod_no_ip_no_own_edges_C7 (props : PodProps)
    (labels : List (String × String)) (nspace node_name : Option String)
    (s : GraphState) (hip : props.pod_ip = none)
    (hfresh : ∀ p ∈ s.pods, p.name ≠ props.name) :
    (∃ p ∈ (upsert_pod props labels nspace node_name s).pods, p.name = props.name)
    ∧ (upsert_pod props labels nspace node_name s).runsOn = s.runsOn
    ∧ (upsert_pod props labels nspace node_name s).podNamespace = s.podNamespace
    ∧ (∀ dn, (dn, props.name) ∈ (upsert_pod props labels nspace node_name s).scheduledTo →
        (dn, props.name) ∈ s.scheduledTo)
    ∧ noIpState.runsOn = [] ∧ noIpState.podNamespace = []
    ∧ ("p", "n1") ∈ withIpState.runsOn ∧ ("p", "ns1") ∈ withIpState.podNamespace := by
  refine ⟨?_, ?_, ?_, ?_, by decide, by decide, by decide, by decide⟩
  · obtain ⟨p, hp, h1, _, _⟩ := upsert_pod_key_exists props labels nspace node_name s
    exact ⟨p, hp, h1⟩
  · rw [upsert_pod_unfold, hip]
    simp only [podNsStep_runsOn]
    rw [podNodeStep_none_q]
    simp
  · rw [upsert_pod_unfold, hip, podNsStep_none_q]
    simp
  · intro dn hmem
    rw [upsert_pod_unfold, hip] at hmem
    simp only [podNsStep_scheduledTo, podNodeStep_scheduledTo] at hmem
    unfold podLabelsStep at hmem
    split at hmem
    · simpa using hmem
    · unfold deployScan at hmem
      rcases scanDeps_sched_elim hmem with h1 | ⟨dn', sel', _, _, p, hp, hc, hx⟩
      · simpa [update_pod_label] using h1
      · exfalso
        have hxn : props.name = p.name := congrArg Prod.snd hx
        have hXeq : update_pod_label none (labelProperty labels)
            (podIpStatusStep props
              (mergePod props.name props.kind props.created s)) =
            podIpStatusStep props
              (mergePod props.name props.kind props.created s) :=
          update_pod_label_eq_self (fun q _ hcm => by simp at hcm)
        rw [hXeq] at hp
        have hXM : podIpStatusStep props
            (mergePod props.name props.kind props.created s) =
            mergePod props.name props.kind props.created s := by
          unfold podIpStatusStep
          rw [hip]
          rfl
        rw [hXM] at hp
        unfold mergePod at hp
        split at hp
        · exact hfresh p hp hxn.symm
        · rcases List.mem_append.mp hp with h2 | h2
          · exact hfresh p h2 hxn.symm
          · rw [List.mem_singleton.mp h2] at hc
            simp [schedCond] at hc

/-- C7 witness: the amended statement applied to the IP-less pod `b` over
the out-of-order scenario state. -/
theorem upsert_pod_no_ip_no_own_edges_C7_witness :
    (upsert_pod podPropsB [("b", "2")] none none stateB).runsOn = stateB.runsOn
    ∧ ∀ dn, (dn, "b") ∈ (upsert_pod podPropsB [("b", "2")] none none stateB).scheduledTo →
        (dn, "b") ∈ stateB.scheduledTo := by
  have h := upsert_pod_no_ip_no_own_edges_C7 podPropsB [("b", "2")] none none stateB
    rfl (by decide)
  exact ⟨h.2.1, h.2.2.2.1⟩

/-- C2 counterexample: the abstract subset test does say an empty selector
matches everything, but a deployment created from an empty selector
dictionary has no stored selector (`if selector:` skips the `SET`), and the
deployment-matching loop skips deployments whose stored selector is null or
empty — so the deployment `d3` matches no pod: re-upserting the labelled
pod `p1` creates no scheduledTo edge, refuting "a deployment with an empty
selector matches every pod". -/
theorem matches_empty_selector_C2_cex :
    matchesSel ["app=x"] [] = true
    ∧ (∃ d ∈ emptySelState.deployments, d.name = "d3" ∧ d.selector = none)
    ∧ (∃ p ∈ emptySelState.pods, p.name = "p1" ∧ p.labels = some ["app=x"])
    ∧ (upsert_pod podPropsX podLabelsX none none emptySelState).scheduledTo = [] := by
  refine ⟨rfl, by decide, by decide, by decide⟩

/-- C2 (amended): the selector condition generated by `upsert_pod` is a pure
subset test — `matchesSel labels selector` is true iff every selector entry
occurs in the labels — and on an empty selector it is vacuously true; but an
empty selector never reaches the condition: deployments whose stored
selector is null or empty are skipped by `if selector:`, so a deployment
with an empty (or unset) selector matches no pod and `upsert_pod` leaves
the scheduledTo edges unchanged when only such deployments are stored. -/
theorem matches_subset_empty_selector_skipped_C2 (l sel : List String)
    (props : PodProps) (labels : List (String × String))
    (nspace node_name : Option String) (s : GraphState)
    (hdeps : ∀ d ∈ s.deployments, d.selector = none ∨ d.selector = some []) :
    (matchesSel l sel = true ↔ ∀ x ∈ sel, x ∈ l)
    ∧ matchesSel l [] = true
    ∧ (upsert_pod props labels nspace node_name s).scheduledTo = s.scheduledTo := by
  refine ⟨?_, rfl, ?_⟩
  · unfold matchesSel
    simp [List.all_eq_true]
  · rw [upsert_pod_unfold]
    simp only [podNsStep_scheduledTo, podNodeStep_scheduledTo]
    unfold podLabelsStep
    split
    · simp
    · unfold deployScan
      have hscan : scanDeps
          ((update_pod_label props.pod_ip (labelProperty labels)
            (podIpStatusStep props
              (mergePod props.name props.kind props.created s))).deployments.map
            (fun d => (d.name, d.selector)))
          (update_pod_label props.pod_ip (labelProperty labels)
            (podIpStatusStep props
              (mergePod props.name props.kind props.created s))) =
          update_pod_label props.pod_ip (labelProperty labels)
            (podIpStatusStep props
              (mergePod props.name props.kind props.created s)) := by
        apply scanDeps_eq_self
        intro pr hpr sel' h1 h2 p hp hc
        rcases List.mem_map.mp hpr with ⟨d, hd, rfl⟩
        have hd' : d ∈ s.deployments := by
          simpa [update_pod_label] using hd
        have h1' : d.selector = some sel' := h1
        rcases hdeps d hd' with h3 | h3
        · rw [h3] at h1'
          cases h1'
        · rw [h3] at h1'
          injection h1' with h4
          rw [← h4] at h2
          simp at h2
      rw [hscan]
      simp [update_pod_label]

/-- C2 witness: the amended statement applied at the state holding only the
selector-less deployment `d3`. -/
theorem matches_subset_empty_selector_skipped_C2_witness :
    (upsert_pod podPropsX podLabelsX none none emptySelState).scheduledTo =
      emptySelState.scheduledTo :=
  (matches_subset_empty_selector_skipped_C2 ["a=1"] [] podPropsX podLabelsX
    none none emptySelState (by decide)).2.2
